import Mathlib

/-!
# cosmos-validator-watcher: metrics model and validator API watcher

A shallow embedding of `pkg/metrics/metrics.go` (the collectors built by `New`, `Register`)
and of `pkg/watcher/validators_api.go` (the three fetches, their JSON records, `fetchInfo`,
`Start`), followed by the properties established about them.

Conventions of the embedding:
* Go `string` is `String`, Go `int` (64 bits wide) and `int64` are `Int` (range checks are
  explicit where the decoder performs them), Go `float64` is a type parameter `F` whose
  conversions are taken from `Env`;
* a `*prometheus.GaugeVec` is a record of its descriptor and of its current children, and the
  registry state is passed explicitly;
* the HTTP client is a function from the request URL to what the round trip produced;
* the scheduling of the three goroutines of `fetchInfo` is an explicit completion order, and an
  unrecovered panic of a goroutine, which ends the process, is an outcome of its own;
* of the log, the error-level entries are kept;
* a run of `Start` is driven by a `Script`: where cancellation is signalled, whether a ready
  tick is taken first at a tick-wait reached after the signal, and the completion orders of the
  goroutines; the number of poll rounds looked at is bounded by an argument;
* the registry of `Register` is the list of the descriptor names registered so far, the
  descriptors of the process and Go collectors being parameters.
-/

namespace ValidatorWatcher

/-! ## Library functions taken as parameters -/

/-- A `time.Time`, observed only through `Unix()`. -/
structure Time where
  unixSec : Int
deriving DecidableEq, Repr

/-- The `Unix()` method of `time.Time`. -/
def Time.Unix (t : Time) : Int := t.unixSec

/-- The zero `time.Time` (January 1, year 1, 00:00 UTC), whose `Unix()` is -62135596800. -/
def Time.zero : Time := ⟨-62135596800⟩

/-- Standard-library arithmetic the watcher relies on, over the carrier `F` of `float64`. -/
structure Env (F : Type) where
  /-- The conversion `float64(x)` of an integer. -/
  ofInt : Int → F
  /-- The result of `strconv.ParseFloat(s, 64)`: `none` when it returns an error. -/
  parseFloat : String → Option F
  /-- The result of parsing the contents of a JSON string as RFC 3339 (`time.Time.UnmarshalJSON`). -/
  parseTime : String → Option Time

/-! ## pkg/metrics/metrics.go -/

/-- Whether a collector is a `GaugeVec` or a `CounterVec`. -/
inductive Kind
  | gauge
  | counter
deriving DecidableEq, Repr

/-- The fields of `prometheus.GaugeOpts` / `prometheus.CounterOpts` that `New` fills in. -/
structure Opts where
  Namespace : String
  Name : String
  Help : String
deriving DecidableEq, Repr

/-- A `*prometheus.GaugeVec` or `*prometheus.CounterVec`: its descriptor (options and ordered
label names) and the current value of each child, keyed by the tuple of label values. -/
structure MetricVec (F : Type) where
  kind : Kind
  opts : Opts
  labelNames : List String
  values : List String → Option F

/-- The call `prometheus.NewGaugeVec(opts, labelNames)`: a gauge family without children. -/
def NewGaugeVec {F : Type} (opts : Opts) (labelNames : List String) : MetricVec F :=
  { kind := .gauge, opts := opts, labelNames := labelNames, values := fun _ => none }

/-- The call `prometheus.NewCounterVec(opts, labelNames)`: a counter family without children. -/
def NewCounterVec {F : Type} (opts : Opts) (labelNames : List String) : MetricVec F :=
  { kind := .counter, opts := opts, labelNames := labelNames, values := fun _ => none }

/-- Modelled from the spec: the write contract of a metric family, whose implementation
(`prometheus.GaugeVec.WithLabelValues`) is outside src/: "label arity for a given name is fixed
at registration; a write with mismatched arity is an error". The result is the child addressed
by the label values, or `none` when their number differs from the number of label names, in
which case `WithLabelValues` panics. -/
def MetricVec.WithLabelValues {F : Type} (g : MetricVec F) (lvs : List String) :
    Option (List String) :=
  if lvs.length = g.labelNames.length then some lvs else none

/-- Modelled from the spec: `Gauge.Set` on a child, "overwrites the current value for that
tuple". -/
def MetricVec.Set {F : Type} (g : MetricVec F) (child : List String) (x : F) : MetricVec F :=
  { g with values := fun lvs => if lvs = child then some x else g.values lvs }

/-- The collector fields of the `Metrics` struct, in the order in which `New` builds them. -/
inductive MetricField
  | BlockHeight
  | ActiveSet
  | SeatPrice
  | Rank
  | ProposedBlocks
  | ValidatedBlocks
  | MissedBlocks
  | SoloMissedBlocks
  | ConsecutiveMissedBlocks
  | TrackedBlocks
  | Transactions
  | SkippedBlocks
  | Tokens
  | IsBonded
  | IsJailed
  | Commission
  | Vote
  | NodeBlockHeight
  | NodeSynced
  | UpgradePlan
  | ProposalEndTime
  | LastValidatedBlockTime
  | ValidatorBalanceAvailable
  | ValidatorCommission
  | ValidatorBalanceDelegated
  | ValidatorBalanceReward
  | ValidatorBalanceUnBonding
  | ValidatorDelegators
  | ValidatorStatus
  | ValidatorTokens
  | ValidatorCommissionRate
  | ValidatorDelegatorShares
  | ValidatorUnbondingTime
  | ValidatorMinSelfDelegation
  | ValidatorParticipationRate
  | ValidatorParticipationTotal
  | ValidatorSigningInfo
  | ValidatorUptime
  | ValidatorVotingPowerPercent
  | ValidatorCumulativeShare
  | ValidatorParticipationVoted
  | ValidatorSigningInfoBondedHeight
  | ValidatorSigningInfoTombstoned
  | ValidatorUptimeHistoricalEarliestHeight
  | ValidatorUptimeHistoricalLastSyncHeight
  | ValidatorUptimeHistoricalSuccessBlocks
  | ValidatorUptimeWindowUptime
  | ValidatorUptimeWindowStart
  | ValidatorUptimeWindowEnd
deriving DecidableEq, Repr

/-- The `Metrics` struct: the registry and one collector per field. -/
structure Metrics (F : Type) where
  /-- The fully-qualified names of the descriptors registered in `Registry` so far. -/
  Registry : List String
  vec : MetricField → MetricVec F

/-- The function `New(namespace)`: a fresh registry and the forty-nine collectors, each with the
name, help text and label names given in the source. -/
def New {F : Type} (ns : String) : Metrics F :=
  { Registry := []
    vec := fun f =>
      match f with
      | .BlockHeight => NewGaugeVec ⟨ns, "block_height", "Latest known block height (all nodes mixed up)"⟩ ["chain_id"]
      | .ActiveSet => NewGaugeVec ⟨ns, "active_set", "Number of validators in the active set"⟩ ["chain_id"]
      | .SeatPrice => NewGaugeVec ⟨ns, "seat_price", "Min seat price to be in the active set (ie. bonded tokens of the latest validator)"⟩ ["chain_id", "denom"]
      | .Rank => NewGaugeVec ⟨ns, "rank", "Rank of the validator"⟩ ["chain_id", "address", "name"]
      | .ProposedBlocks => NewCounterVec ⟨ns, "proposed_blocks", "Number of proposed blocks per validator (for a bonded validator)"⟩ ["chain_id", "address", "name"]
      | .ValidatedBlocks => NewCounterVec ⟨ns, "validated_blocks", "Number of validated blocks per validator (for a bonded validator)"⟩ ["chain_id", "address", "name"]
      | .MissedBlocks => NewCounterVec ⟨ns, "missed_blocks", "Number of missed blocks per validator (for a bonded validator)"⟩ ["chain_id", "address", "name"]
      | .SoloMissedBlocks => NewCounterVec ⟨ns, "solo_missed_blocks", "Number of missed blocks per validator, unless block is missed by many other validators"⟩ ["chain_id", "address", "name"]
      | .ConsecutiveMissedBlocks => NewGaugeVec ⟨ns, "consecutive_missed_blocks", "Number of consecutive missed blocks per validator (for a bonded validator)"⟩ ["chain_id", "address", "name"]
      | .TrackedBlocks => NewCounterVec ⟨ns, "tracked_blocks", "Number of blocks tracked since start"⟩ ["chain_id"]
      | .Transactions => NewCounterVec ⟨ns, "transactions_total", "Number of transactions since start"⟩ ["chain_id"]
      | .SkippedBlocks => NewCounterVec ⟨ns, "skipped_blocks", "Number of blocks skipped (ie. not tracked) since start"⟩ ["chain_id"]
      | .Tokens => NewGaugeVec ⟨ns, "tokens", "Number of staked tokens per validator"⟩ ["chain_id", "address", "name", "denom"]
      | .IsBonded => NewGaugeVec ⟨ns, "is_bonded", "Set to 1 if the validator is bonded"⟩ ["chain_id", "address", "name"]
      | .IsJailed => NewGaugeVec ⟨ns, "is_jailed", "Set to 1 if the validator is jailed"⟩ ["chain_id", "address", "name"]
      | .Commission => NewGaugeVec ⟨ns, "commission", "Earned validator commission"⟩ ["chain_id", "address", "name", "denom"]
      | .Vote => NewGaugeVec ⟨ns, "vote", "Set to 1 if the validator has voted on a proposal"⟩ ["chain_id", "address", "name", "proposal_id"]
      | .NodeBlockHeight => NewGaugeVec ⟨ns, "node_block_height", "Latest fetched block height for each node"⟩ ["chain_id", "node"]
      | .NodeSynced => NewGaugeVec ⟨ns, "node_synced", "Set to 1 is the node is synced (ie. not catching-up)"⟩ ["chain_id", "node"]
      | .UpgradePlan => NewGaugeVec ⟨ns, "upgrade_plan", "Block height of the upcoming upgrade (hard fork)"⟩ ["chain_id", "version"]
      | .ProposalEndTime => NewGaugeVec ⟨ns, "proposal_end_time", "Timestamp of the voting end time of a proposal"⟩ ["chain_id", "proposal_id"]
      | .LastValidatedBlockTime => NewGaugeVec ⟨ns, "last_validated_block_time", "Timestamp of the last validated block"⟩ ["chain_id", "address", "name"]
      | .ValidatorBalanceAvailable => NewGaugeVec ⟨ns, "validator_balance_available", "Validator balance available"⟩ ["address"]
      | .ValidatorCommission => NewGaugeVec ⟨ns, "validator_balance_commission", "Validator commission"⟩ ["address"]
      | .ValidatorBalanceDelegated => NewGaugeVec ⟨ns, "validator_balance_delegated", "Validator balance delegated"⟩ ["address"]
      | .ValidatorBalanceReward => NewGaugeVec ⟨ns, "validator_balance_reward", "Validator balance reward"⟩ ["address"]
      | .ValidatorBalanceUnBonding => NewGaugeVec ⟨ns, "validator_balance_unbonding", "Validator balance unbonding"⟩ ["address"]
      | .ValidatorDelegators => NewGaugeVec ⟨ns, "validator_delegators", "Validator delegators"⟩ ["address"]
      | .ValidatorStatus => NewGaugeVec ⟨ns, "validator_status", "Validator status"⟩ ["address"]
      | .ValidatorTokens => NewGaugeVec ⟨ns, "validator_tokens", "Validator tokens"⟩ ["address"]
      | .ValidatorCommissionRate => NewGaugeVec ⟨ns, "validator_commission_rate", "Validator commission rate"⟩ ["address"]
      | .ValidatorDelegatorShares => NewGaugeVec ⟨ns, "validator_delegator_shares", "Validator delegator shares"⟩ ["address"]
      | .ValidatorUnbondingTime => NewGaugeVec ⟨ns, "validator_unbonding_time", "Validator unbonding time"⟩ ["address"]
      | .ValidatorMinSelfDelegation => NewGaugeVec ⟨ns, "validator_min_self_delegation", "Validator min self delegation"⟩ ["address"]
      | .ValidatorParticipationRate => NewGaugeVec ⟨ns, "validator_participation_rate", "Validator participation rate"⟩ ["address"]
      | .ValidatorParticipationTotal => NewGaugeVec ⟨ns, "validator_participation_total", "Validator participation total"⟩ ["address"]
      | .ValidatorSigningInfo => NewGaugeVec ⟨ns, "validator_signing_info", "Validator signing info"⟩ ["address"]
      | .ValidatorUptime => NewGaugeVec ⟨ns, "validator_uptime", "Validator uptime"⟩ ["address"]
      | .ValidatorVotingPowerPercent => NewGaugeVec ⟨ns, "validator_voting_power_percent", "Validator voting power percent"⟩ ["address"]
      | .ValidatorCumulativeShare => NewGaugeVec ⟨ns, "validator_cumulative_share", "Validator cumulative share"⟩ ["address"]
      | .ValidatorParticipationVoted => NewGaugeVec ⟨ns, "validator_participation_voted", "Validator participation voted"⟩ ["address"]
      | .ValidatorSigningInfoBondedHeight => NewGaugeVec ⟨ns, "validator_signing_info_bonded_height", "Validator signing info bonded height"⟩ ["address"]
      | .ValidatorSigningInfoTombstoned => NewGaugeVec ⟨ns, "validator_signing_info_tombstoned", "Validator signing info tombstoned"⟩ ["address"]
      | .ValidatorUptimeHistoricalEarliestHeight => NewGaugeVec ⟨ns, "validator_uptime_historical_earliest_height", "Validator uptime historical earliest height"⟩ ["address"]
      | .ValidatorUptimeHistoricalLastSyncHeight => NewGaugeVec ⟨ns, "validator_uptime_historical_last_sync_height", "Validator uptime historical last sync height"⟩ ["address"]
      | .ValidatorUptimeHistoricalSuccessBlocks => NewGaugeVec ⟨ns, "validator_uptime_historical_success_blocks", "Validator uptime historical success blocks"⟩ ["address"]
      | .ValidatorUptimeWindowUptime => NewGaugeVec ⟨ns, "validator_uptime_window_uptime", "Validator uptime window uptime"⟩ ["address"]
      | .ValidatorUptimeWindowStart => NewGaugeVec ⟨ns, "validator_uptime_window_start", "Validator uptime window start"⟩ ["address"]
      | .ValidatorUptimeWindowEnd => NewGaugeVec ⟨ns, "validator_uptime_window_end", "Validator uptime window end"⟩ ["address"]
  }

/-! ## pkg/watcher/validators_api.go: response records -/

/-- Modelled from the spec: the `TrackedValidator` record, declared outside src/ ("account
identifier, operator address, display name"), with the four fields the watcher reads. -/
structure TrackedValidator where
  Address : String
  Name : String
  Account : String
  OperatorAddress : String
deriving DecidableEq, Repr

/-- The struct `APIBalance`. -/
structure APIBalance where
  Available : Int
  Vesting : Int
  Delegated : Int
  Unbonding : Int
  Reward : Int
  Commission : Int
deriving DecidableEq, Repr

/-- The struct `APIAssets`. -/
structure APIAssets where
  Denom : String
  Amount : String
deriving DecidableEq, Repr

/-- The struct `APIAccountResponse`. -/
structure APIAccountResponse where
  Address : String
  Balance : APIBalance
  Assets : List APIAssets
deriving DecidableEq, Repr

/-- The struct `CommissionRates`. -/
structure CommissionRates where
  Rate : String
  MaxRate : String
  MaxChangeRate : String
deriving DecidableEq, Repr

/-- The struct `Commission`. -/
structure Commission where
  CommissionRates : CommissionRates
  UpdateTime : Time
deriving DecidableEq, Repr

/-- The struct `Participation`. -/
structure Participation where
  Rate : Int
  Total : Int
  Voted : Int
deriving DecidableEq, Repr

/-- The struct `SigningInfo`. -/
structure SigningInfo where
  BondedHeight : Int
  JailedUntil : String
  Tombstoned : Bool
deriving DecidableEq, Repr

/-- The struct `HistoricalUptime`. -/
structure HistoricalUptime where
  EarliestHeight : Int
  LastSyncHeight : Int
  SuccessBlocks : Int
deriving DecidableEq, Repr

/-- The struct `WindowUptime`. -/
structure WindowUptime (F : Type) where
  Uptime : F
  WindowStart : Int
  WindowEnd : Int

/-- The struct `Uptime`. -/
structure Uptime (F : Type) where
  HistoricalUptime : HistoricalUptime
  WindowUptime : WindowUptime F

/-- The struct `APIValidator`. -/
structure APIValidator (F : Type) where
  Status : Int
  Tokens : Int
  DelegatorShares : String
  UnbondingTime : Time
  Commission : Commission
  MinSelfDelegation : String
  Participation : Participation
  SigningInfo : SigningInfo
  Uptime : Uptime F
  VotingPowerPercent : F
  CumulativeShare : F

/-- The struct `APIDelegatorsResponse`. -/
structure APIDelegatorsResponse where
  ValidatorDelegators : Int
deriving DecidableEq, Repr

/-! ### Zero values (`var account APIAccountResponse` and the like) -/

def APIBalance.zero : APIBalance := ⟨0, 0, 0, 0, 0, 0⟩

def APIAssets.zero : APIAssets := ⟨"", ""⟩

def APIAccountResponse.zero : APIAccountResponse := ⟨"", APIBalance.zero, []⟩

def CommissionRates.zero : CommissionRates := ⟨"", "", ""⟩

def Commission.zero : Commission := ⟨CommissionRates.zero, Time.zero⟩

def Participation.zero : Participation := ⟨0, 0, 0⟩

def SigningInfo.zero : SigningInfo := ⟨0, "", false⟩

def HistoricalUptime.zero : HistoricalUptime := ⟨0, 0, 0⟩

def WindowUptime.zero {F : Type} (env : Env F) : WindowUptime F := ⟨env.ofInt 0, 0, 0⟩

def Uptime.zero {F : Type} (env : Env F) : Uptime F := ⟨HistoricalUptime.zero, WindowUptime.zero env⟩

def APIValidator.zero {F : Type} (env : Env F) : APIValidator F :=
  { Status := 0, Tokens := 0, DelegatorShares := "", UnbondingTime := Time.zero,
    Commission := Commission.zero, MinSelfDelegation := "", Participation := Participation.zero,
    SigningInfo := SigningInfo.zero, Uptime := Uptime.zero env,
    VotingPowerPercent := env.ofInt 0, CumulativeShare := env.ofInt 0 }

def APIDelegatorsResponse.zero : APIDelegatorsResponse := ⟨0⟩

/-! ### `json.Unmarshal` into the records

The body is taken after the syntax check of `json.Unmarshal`: a well-formed body is a `JSON`
value. What follows is the decoding of such a value into the record types above, as directed
by their field types and `json:"..."` tags: a key selects the field whose tag equals it up to
case folding, other keys are skipped, `null` leaves the target as it is, and a value that does
not fit the field type makes `Unmarshal` return an error. -/

/-- A well-formed JSON value; a number keeps its literal text. -/
inductive JSON
  | null
  | bool (b : Bool)
  | num (lit : String)
  | str (s : String)
  | arr (items : List JSON)
  | obj (members : List (String × JSON))

/-- Case folding of one character of a key: ASCII letters fold to lower case; the Kelvin sign
and the long s are the only other characters in the fold sets of ASCII letters. -/
def foldRune (c : Char) : Char :=
  if c = Char.ofNat 0x212A then 'k'
  else if c = Char.ofNat 0x17F then 's'
  else if 'A' ≤ c ∧ c ≤ 'Z' then Char.ofNat (c.toNat + 32)
  else c

/-- Whether the object key `key` selects the field tagged `tag`. -/
def keyIs (key tag : String) : Bool :=
  key.data.map foldRune = tag.data.map foldRune

/-- Value of a run of decimal digits, most significant first, on top of `acc`. -/
def parseDigits (acc : Nat) : List Char → Option Nat
  | [] => some acc
  | c :: cs =>
    if '0' ≤ c ∧ c ≤ '9' then parseDigits (10 * acc + (c.toNat - 48)) cs else none

/-- The call `strconv.ParseInt(lit, 10, 64)` on a number literal: an optional sign and a
non-empty run of digits within the range of `int64`; anything else (a fraction, an exponent,
an out-of-range value) is an error. -/
def parseInt (lit : String) : Option Int :=
  match lit.data with
  | [] => none
  | '-' :: [] => none
  | '+' :: [] => none
  | '-' :: ds =>
    match parseDigits 0 ds with
    | some n => if n ≤ 2 ^ 63 then some (-(n : Int)) else none
    | none => none
  | '+' :: ds =>
    match parseDigits 0 ds with
    | some n => if n < 2 ^ 63 then some (n : Int) else none
    | none => none
  | ds =>
    match parseDigits 0 ds with
    | some n => if n < 2 ^ 63 then some (n : Int) else none
    | none => none

/-- Decoding into an `int` or `int64` field. -/
def decodeInt (cur : Int) : JSON → Option Int
  | .null => some cur
  | .num lit => parseInt lit
  | _ => none

/-- Decoding into a `string` field. -/
def decodeString (cur : String) : JSON → Option String
  | .null => some cur
  | .str s => some s
  | _ => none

/-- Decoding into a `bool` field. -/
def decodeBool (cur : Bool) : JSON → Option Bool
  | .null => some cur
  | .bool b => some b
  | _ => none

/-- Decoding into a `float64` field. -/
def decodeFloat64 {F : Type} (env : Env F) (cur : F) : JSON → Option F
  | .null => some cur
  | .num lit => env.parseFloat lit
  | _ => none

/-- Decoding into a `time.Time` field (through its `UnmarshalJSON`). -/
def decodeTime {F : Type} (env : Env F) (cur : Time) : JSON → Option Time
  | .null => some cur
  | .str s => env.parseTime s
  | _ => none

/-- Decoding into a struct: each member of an object is stored by `setField`, in order. -/
def decodeObject {α : Type} (setField : α → String → JSON → Option α) (cur : α) :
    JSON → Option α
  | .null => some cur
  | .obj members => members.foldlM (fun acc kv => setField acc kv.1 kv.2) cur
  | _ => none

/-- Decoding into a slice of structs: every element starts from the zero value. -/
def decodeSlice {α : Type} (decodeElem : JSON → Option α) : JSON → Option (List α)
  | .null => some []
  | .arr items => items.mapM decodeElem
  | _ => none

def APIBalance.setField (b : APIBalance) (key : String) (v : JSON) : Option APIBalance :=
  if keyIs key "available" then (decodeInt b.Available v).map fun x => { b with Available := x }
  else if keyIs key "vesting" then (decodeInt b.Vesting v).map fun x => { b with Vesting := x }
  else if keyIs key "delegated" then (decodeInt b.Delegated v).map fun x => { b with Delegated := x }
  else if keyIs key "unbonding" then (decodeInt b.Unbonding v).map fun x => { b with Unbonding := x }
  else if keyIs key "reward" then (decodeInt b.Reward v).map fun x => { b with Reward := x }
  else if keyIs key "commission" then
    (decodeInt b.Commission v).map fun x => { b with Commission := x }
  else some b

def APIAssets.setField (a : APIAssets) (key : String) (v : JSON) : Option APIAssets :=
  if keyIs key "denom" then (decodeString a.Denom v).map fun x => { a with Denom := x }
  else if keyIs key "amount" then (decodeString a.Amount v).map fun x => { a with Amount := x }
  else some a

def APIAccountResponse.setField (a : APIAccountResponse) (key : String) (v : JSON) :
    Option APIAccountResponse :=
  if keyIs key "address" then (decodeString a.Address v).map fun x => { a with Address := x }
  else if keyIs key "balance" then
    (decodeObject APIBalance.setField a.Balance v).map fun x => { a with Balance := x }
  else if keyIs key "assets" then
    (decodeSlice (decodeObject APIAssets.setField APIAssets.zero) v).map
      fun x => { a with Assets := x }
  else some a

/-- The call `json.Unmarshal(body, &account)` on a well-formed body: `none` when it returns an
error. -/
def unmarshalAccount (body : JSON) : Option APIAccountResponse :=
  decodeObject APIAccountResponse.setField APIAccountResponse.zero body

def CommissionRates.setField (c : CommissionRates) (key : String) (v : JSON) :
    Option CommissionRates :=
  if keyIs key "rate" then (decodeString c.Rate v).map fun x => { c with Rate := x }
  else if keyIs key "max_rate" then (decodeString c.MaxRate v).map fun x => { c with MaxRate := x }
  else if keyIs key "max_change_rate" then
    (decodeString c.MaxChangeRate v).map fun x => { c with MaxChangeRate := x }
  else some c

def Commission.setField {F : Type} (env : Env F) (c : Commission) (key : String) (v : JSON) :
    Option Commission :=
  if keyIs key "commission_rates" then
    (decodeObject CommissionRates.setField c.CommissionRates v).map
      fun x => { c with CommissionRates := x }
  else if keyIs key "update_time" then
    (decodeTime env c.UpdateTime v).map fun x => { c with UpdateTime := x }
  else some c

def Participation.setField (p : Participation) (key : String) (v : JSON) :
    Option Participation :=
  if keyIs key "rate" then (decodeInt p.Rate v).map fun x => { p with Rate := x }
  else if keyIs key "total" then (decodeInt p.Total v).map fun x => { p with Total := x }
  else if keyIs key "voted" then (decodeInt p.Voted v).map fun x => { p with Voted := x }
  else some p

def SigningInfo.setField (s : SigningInfo) (key : String) (v : JSON) : Option SigningInfo :=
  if keyIs key "bondedHeight" then
    (decodeInt s.BondedHeight v).map fun x => { s with BondedHeight := x }
  else if keyIs key "jailedUntil" then
    (decodeString s.JailedUntil v).map fun x => { s with JailedUntil := x }
  else if keyIs key "tombstoned" then
    (decodeBool s.Tombstoned v).map fun x => { s with Tombstoned := x }
  else some s

def HistoricalUptime.setField (h : HistoricalUptime) (key : String) (v : JSON) :
    Option HistoricalUptime :=
  if keyIs key "earliestHeight" then
    (decodeInt h.EarliestHeight v).map fun x => { h with EarliestHeight := x }
  else if keyIs key "lastSyncHeight" then
    (decodeInt h.LastSyncHeight v).map fun x => { h with LastSyncHeight := x }
  else if keyIs key "successBlocks" then
    (decodeInt h.SuccessBlocks v).map fun x => { h with SuccessBlocks := x }
  else some h

def WindowUptime.setField {F : Type} (env : Env F) (w : WindowUptime F) (key : String)
    (v : JSON) : Option (WindowUptime F) :=
  if keyIs key "uptime" then (decodeFloat64 env w.Uptime v).map fun x => { w with Uptime := x }
  else if keyIs key "windowStart" then
    (decodeInt w.WindowStart v).map fun x => { w with WindowStart := x }
  else if keyIs key "windowEnd" then
    (decodeInt w.WindowEnd v).map fun x => { w with WindowEnd := x }
  else some w

def Uptime.setField {F : Type} (env : Env F) (u : Uptime F) (key : String) (v : JSON) :
    Option (Uptime F) :=
  if keyIs key "historicalUptime" then
    (decodeObject HistoricalUptime.setField u.HistoricalUptime v).map
      fun x => { u with HistoricalUptime := x }
  else if keyIs key "windowUptime" then
    (decodeObject (WindowUptime.setField env) u.WindowUptime v).map
      fun x => { u with WindowUptime := x }
  else some u

def APIValidator.setField {F : Type} (env : Env F) (a : APIValidator F) (key : String)
    (v : JSON) : Option (APIValidator F) :=
  if keyIs key "status" then (decodeInt a.Status v).map fun x => { a with Status := x }
  else if keyIs key "tokens" then (decodeInt a.Tokens v).map fun x => { a with Tokens := x }
  else if keyIs key "delegator_shares" then
    (decodeString a.DelegatorShares v).map fun x => { a with DelegatorShares := x }
  else if keyIs key "unbonding_time" then
    (decodeTime env a.UnbondingTime v).map fun x => { a with UnbondingTime := x }
  else if keyIs key "commission" then
    (decodeObject (Commission.setField env) a.Commission v).map
      fun x => { a with Commission := x }
  else if keyIs key "min_self_delegation" then
    (decodeString a.MinSelfDelegation v).map fun x => { a with MinSelfDelegation := x }
  else if keyIs key "participation" then
    (decodeObject Participation.setField a.Participation v).map
      fun x => { a with Participation := x }
  else if keyIs key "signingInfo" then
    (decodeObject SigningInfo.setField a.SigningInfo v).map fun x => { a with SigningInfo := x }
  else if keyIs key "uptime" then
    (decodeObject (Uptime.setField env) a.Uptime v).map fun x => { a with Uptime := x }
  else if keyIs key "votingPowerPercent" then
    (decodeFloat64 env a.VotingPowerPercent v).map fun x => { a with VotingPowerPercent := x }
  else if keyIs key "cumulativeShare" then
    (decodeFloat64 env a.CumulativeShare v).map fun x => { a with CumulativeShare := x }
  else some a

/-- The call `json.Unmarshal(body, &apiValidator)` on a well-formed body: `none` when it
returns an error. -/
def unmarshalValidator {F : Type} (env : Env F) (body : JSON) : Option (APIValidator F) :=
  decodeObject (APIValidator.setField env) (APIValidator.zero env) body

def APIDelegatorsResponse.setField (d : APIDelegatorsResponse) (key : String) (v : JSON) :
    Option APIDelegatorsResponse :=
  if keyIs key "validatorDelegators" then
    (decodeInt d.ValidatorDelegators v).map fun x => { d with ValidatorDelegators := x }
  else some d

/-- The call `json.Unmarshal(body, &apiResponse)` on a well-formed body: `none` when it
returns an error. -/
def unmarshalDelegators (body : JSON) : Option APIDelegatorsResponse :=
  decodeObject APIDelegatorsResponse.setField APIDelegatorsResponse.zero body

/-! ## pkg/watcher/validators_api.go: the fetches -/

/-- The errors a fetch returns, by the statement that produces them. -/
inductive FetchErr
  /-- The error of `http.NewRequestWithContext`, with its text. -/
  | request (msg : String)
  /-- The error of `w.api.Do(req)`, with its text. -/
  | transport (msg : String)
  /-- The error built by `fmt.Errorf("unexpected status code: %d", resp.StatusCode)`. -/
  | status (code : Int)
  /-- The error of `io.ReadAll(resp.Body)`, with its text. -/
  | read (msg : String)
  /-- The error of `json.Unmarshal`. -/
  | unmarshal
deriving DecidableEq, Repr

/-- The text `err.Error()`, where the program or its input determines it; the wording of the
errors of `json.Unmarshal` is left to the library. -/
def FetchErr.Error : FetchErr → Option String
  | .request msg => some msg
  | .transport msg => some msg
  | .status code => some ("unexpected status code: " ++ toString code)
  | .read msg => some msg
  | .unmarshal => none

/-- What `io.ReadAll(resp.Body)` gives: an error, or the bytes of the body, which are either
a well-formed JSON value or not (`none`). -/
inductive Body
  | readError (msg : String)
  | bytes (value : Option JSON)

/-- What building and sending one GET request gives. -/
inductive RoundTrip
  /-- The request cannot be built. -/
  | requestError (msg : String)
  /-- The client returns an error (refused connection, timeout, cancellation). -/
  | transportError (msg : String)
  /-- A response arrives, with its status code and body. -/
  | response (StatusCode : Int) (body : Body)

/-- An error-level log entry: the `Err`, `Str` and `Int` fields and the message. -/
structure LogEntry where
  err : Option FetchErr
  strs : List (String × String)
  ints : List (String × Int)
  msg : String
deriving DecidableEq, Repr

/-- The struct `ValidatorsAPIWatcher`; the client `api` maps a request URL to its round trip. -/
structure ValidatorsAPIWatcher (F : Type) where
  metrics : Metrics F
  validators : List TrackedValidator
  api : String → RoundTrip

/-- How a call ends: it returns `nil`, it returns an error, or it panics. -/
inductive Outcome
  | nil
  | err (e : FetchErr)
  | panic
deriving DecidableEq, Repr

/-- One statement `w.metrics.<field>.WithLabelValues(lvs...).Set(value)`. -/
structure Write (F : Type) where
  field : MetricField
  lvs : List String
  value : F

/-- The effect of one write on the registry state; `none` when `WithLabelValues` panics. -/
def Metrics.write {F : Type} (m : Metrics F) (wr : Write F) : Option (Metrics F) :=
  match (m.vec wr.field).WithLabelValues wr.lvs with
  | none => none
  | some child =>
    some { m with vec := fun f => if f = wr.field then (m.vec f).Set child wr.value else m.vec f }

/-- A sequence of writes executed one after another; a panic stops the sequence and keeps the
writes made before it. -/
def applyWrites {F : Type} (m : Metrics F) : List (Write F) → Outcome × Metrics F
  | [] => (.nil, m)
  | wr :: rest =>
    match m.write wr with
    | none => (.panic, m)
    | some m1 => applyWrites m1 rest

/-- The result of a fetch: how it ended, the registry state it leaves, and its error-level log
entries. -/
structure FetchResult (F : Type) where
  outcome : Outcome
  metrics : Metrics F
  logs : List LogEntry

/-- The function `MustFloat64`. -/
def MustFloat64 {F : Type} (env : Env F) (val : String) : F :=
  match env.parseFloat val with
  | none => env.ofInt 0
  | some f => f

/-- Modelled from the spec: `metrics.BoolToFloat64`, declared outside src/: "Boolean fields
publish as 1.0/0.0". -/
def BoolToFloat64 {F : Type} (env : Env F) (b : Bool) : F :=
  if b then env.ofInt 1 else env.ofInt 0

/-- The `requestURL` of `fetchAccount`. -/
def accountURL (validator : TrackedValidator) : String :=
  "https://api.testnet.storyscan.app/accounts/" ++ validator.Account

/-- The `requestURL` of `fetchValidator`. -/
def validatorURL (validator : TrackedValidator) : String :=
  "https://api.testnet.storyscan.app/validators/" ++ validator.OperatorAddress

/-- The `requestURL` of `fetchDelegator`. -/
def delegatorsURL (validator : TrackedValidator) : String :=
  "https://api.testnet.storyscan.app/validators/" ++ validator.OperatorAddress ++ "/delegators"

/-- The "update metrics" statements of `fetchAccount`, in source order. -/
def accountWrites {F : Type} (env : Env F) (validator : TrackedValidator)
    (account : APIAccountResponse) : List (Write F) :=
  [ ⟨.ValidatorBalanceAvailable, [validator.Address, validator.Name],
      env.ofInt account.Balance.Available⟩,
    ⟨.ValidatorCommission, [validator.Address, validator.Name],
      env.ofInt account.Balance.Commission⟩,
    ⟨.ValidatorBalanceDelegated, [validator.Address, validator.Name],
      env.ofInt account.Balance.Delegated⟩,
    ⟨.ValidatorBalanceReward, [validator.Address, validator.Name],
      env.ofInt account.Balance.Reward⟩,
    ⟨.ValidatorBalanceUnBonding, [validator.Address, validator.Name],
      env.ofInt account.Balance.Unbonding⟩ ]

/-- The method `fetchAccount`. -/
def fetchAccount {F : Type} (env : Env F) (w : ValidatorsAPIWatcher F)
    (validator : TrackedValidator) : FetchResult F :=
  let requestURL := accountURL validator
  match w.api requestURL with
  | .requestError msg => ⟨.err (.request msg), w.metrics, []⟩
  | .transportError msg => ⟨.err (.transport msg), w.metrics, []⟩
  | .response StatusCode body =>
    if StatusCode ≠ 200 then
      ⟨.err (.status StatusCode), w.metrics,
        [⟨none, [("request_url", requestURL)], [("status_code", StatusCode)],
          "failed to fetch account info"⟩]⟩
    else
      match body with
      | .readError msg => ⟨.err (.read msg), w.metrics, []⟩
      | .bytes none => ⟨.err .unmarshal, w.metrics, []⟩
      | .bytes (some value) =>
        match unmarshalAccount value with
        | none => ⟨.err .unmarshal, w.metrics, []⟩
        | some account =>
          let done := applyWrites w.metrics (accountWrites env validator account)
          ⟨done.1, done.2, []⟩

/-- The "update metrics" statements of `fetchValidator`, in source order. -/
def validatorWrites {F : Type} (env : Env F) (validator : TrackedValidator)
    (apiValidator : APIValidator F) : List (Write F) :=
  [ ⟨.ValidatorStatus, [validator.Address, validator.Name], env.ofInt apiValidator.Status⟩,
    ⟨.ValidatorTokens, [validator.Address, validator.Name], env.ofInt apiValidator.Tokens⟩,
    ⟨.ValidatorCommissionRate, [validator.Address, validator.Name],
      MustFloat64 env apiValidator.Commission.CommissionRates.Rate⟩,
    ⟨.ValidatorDelegatorShares, [validator.Address, validator.Name],
      MustFloat64 env apiValidator.DelegatorShares⟩,
    ⟨.ValidatorUnbondingTime, [validator.Address, validator.Name],
      env.ofInt apiValidator.UnbondingTime.Unix⟩,
    ⟨.ValidatorMinSelfDelegation, [validator.Address, validator.Name],
      MustFloat64 env apiValidator.MinSelfDelegation⟩,
    ⟨.ValidatorParticipationRate, [validator.Address, validator.Name],
      env.ofInt apiValidator.Participation.Rate⟩,
    ⟨.ValidatorParticipationTotal, [validator.Address, validator.Name],
      env.ofInt apiValidator.Participation.Total⟩,
    ⟨.ValidatorParticipationVoted, [validator.Address, validator.Name],
      env.ofInt apiValidator.Participation.Voted⟩,
    ⟨.ValidatorSigningInfoBondedHeight, [validator.Address, validator.Name],
      env.ofInt apiValidator.SigningInfo.BondedHeight⟩,
    ⟨.ValidatorSigningInfoTombstoned, [validator.Address, validator.Name],
      BoolToFloat64 env apiValidator.SigningInfo.Tombstoned⟩,
    ⟨.ValidatorUptimeHistoricalEarliestHeight, [validator.Address, validator.Name],
      env.ofInt apiValidator.Uptime.HistoricalUptime.EarliestHeight⟩,
    ⟨.ValidatorUptimeHistoricalLastSyncHeight, [validator.Address, validator.Name],
      env.ofInt apiValidator.Uptime.HistoricalUptime.LastSyncHeight⟩,
    ⟨.ValidatorUptimeHistoricalSuccessBlocks, [validator.Address, validator.Name],
      env.ofInt apiValidator.Uptime.HistoricalUptime.SuccessBlocks⟩,
    ⟨.ValidatorUptimeWindowUptime, [validator.Address, validator.Name],
      apiValidator.Uptime.WindowUptime.Uptime⟩,
    ⟨.ValidatorUptimeWindowStart, [validator.Address, validator.Name],
      env.ofInt apiValidator.Uptime.WindowUptime.WindowStart⟩,
    ⟨.ValidatorUptimeWindowEnd, [validator.Address, validator.Name],
      env.ofInt apiValidator.Uptime.WindowUptime.WindowEnd⟩,
    ⟨.ValidatorVotingPowerPercent, [validator.Address, validator.Name],
      apiValidator.VotingPowerPercent⟩,
    ⟨.ValidatorCumulativeShare, [validator.Address, validator.Name],
      apiValidator.CumulativeShare⟩ ]

/-- The method `fetchValidator`. -/
def fetchValidator {F : Type} (env : Env F) (w : ValidatorsAPIWatcher F)
    (validator : TrackedValidator) : FetchResult F :=
  let requestURL := validatorURL validator
  match w.api requestURL with
  | .requestError msg => ⟨.err (.request msg), w.metrics, []⟩
  | .transportError msg => ⟨.err (.transport msg), w.metrics, []⟩
  | .response StatusCode body =>
    if StatusCode ≠ 200 then
      ⟨.err (.status StatusCode), w.metrics,
        [⟨none, [("request_url", requestURL)], [("status_code", StatusCode)],
          "failed to fetch account info"⟩]⟩
    else
      match body with
      | .readError msg => ⟨.err (.read msg), w.metrics, []⟩
      | .bytes none => ⟨.err .unmarshal, w.metrics, []⟩
      | .bytes (some value) =>
        match unmarshalValidator env value with
        | none => ⟨.err .unmarshal, w.metrics, []⟩
        | some apiValidator =>
          let done := applyWrites w.metrics (validatorWrites env validator apiValidator)
          ⟨done.1, done.2, []⟩

/-- The "update metrics" statement of `fetchDelegator`. -/
def delegatorWrites {F : Type} (env : Env F) (validator : TrackedValidator)
    (apiResponse : APIDelegatorsResponse) : List (Write F) :=
  [ ⟨.ValidatorDelegators, [validator.Address, validator.Name],
      env.ofInt apiResponse.ValidatorDelegators⟩ ]

/-- The method `fetchDelegator`. -/
def fetchDelegator {F : Type} (env : Env F) (w : ValidatorsAPIWatcher F)
    (validator : TrackedValidator) : FetchResult F :=
  let requestURL := delegatorsURL validator
  match w.api requestURL with
  | .requestError msg => ⟨.err (.request msg), w.metrics, []⟩
  | .transportError msg => ⟨.err (.transport msg), w.metrics, []⟩
  | .response StatusCode body =>
    if StatusCode ≠ 200 then
      ⟨.err (.status StatusCode), w.metrics,
        [⟨none, [("request_url", requestURL)], [("status_code", StatusCode)],
          "failed to fetch delegator info"⟩]⟩
    else
      match body with
      | .readError msg => ⟨.err (.read msg), w.metrics, []⟩
      | .bytes none => ⟨.err .unmarshal, w.metrics, []⟩
      | .bytes (some value) =>
        match unmarshalDelegators value with
        | none => ⟨.err .unmarshal, w.metrics, []⟩
        | some apiResponse =>
          let done := applyWrites w.metrics (delegatorWrites env validator apiResponse)
          ⟨done.1, done.2, []⟩

/-! ## pkg/watcher/validators_api.go: `fetchInfo` -/

/-- The three goroutines that `fetchInfo` starts. -/
inductive Fetch
  | account
  | validator
  | delegator
deriving DecidableEq, Repr

/-- The body of one goroutine: the fetch whose result it sends on `errCh`. -/
def runFetch {F : Type} (env : Env F) (w : ValidatorsAPIWatcher F)
    (validator : TrackedValidator) : Fetch → FetchResult F
  | .account => fetchAccount env w validator
  | .validator => fetchValidator env w validator
  | .delegator => fetchDelegator env w validator

/-- The six orders in which the three goroutines can complete. -/
def completionOrders : List (List Fetch) :=
  [ [.account, .validator, .delegator], [.account, .delegator, .validator],
    [.validator, .account, .delegator], [.validator, .delegator, .account],
    [.delegator, .account, .validator], [.delegator, .validator, .account] ]

/-- How a call of `fetchInfo` ends: it returns `err` (`none` for `nil`); or a goroutine panics
before it returns, which ends the process; or it waits on `errCh` for a value that no goroutine
will send. -/
inductive InfoOutcome
  | returned (err : Option FetchErr)
  | panic
  | blocked
deriving DecidableEq, Repr

/-- The result of `fetchInfo`: how it ended, how many values it had received from `errCh`, the
goroutines whose value it had not received, the registry state at that moment, and the
error-level log up to it. -/
structure InfoResult (F : Type) where
  outcome : InfoOutcome
  received : Nat
  pending : List Fetch
  metrics : Metrics F
  logs : List LogEntry

/-- The receive loop `for i := 0; i < 3; i++` of `fetchInfo`, with `n` iterations left. The
goroutines complete in the order `errCh`; each runs on the registry state left by those that
completed before it, and its result is the next value received. -/
def fetchInfoLoop {F : Type} (env : Env F) (validator : TrackedValidator) :
    Nat → ValidatorsAPIWatcher F → List Fetch → Nat → List LogEntry → InfoResult F
  | 0, w, errCh, received, logs => ⟨.returned none, received, errCh, w.metrics, logs⟩
  | _ + 1, w, [], received, logs => ⟨.blocked, received, [], w.metrics, logs⟩
  | n + 1, w, f :: errCh, received, logs =>
    let r := runFetch env w validator f
    match r.outcome with
    | .panic => ⟨.panic, received, errCh, r.metrics, logs ++ r.logs⟩
    | .nil =>
      fetchInfoLoop env validator n { w with metrics := r.metrics } errCh (received + 1)
        (logs ++ r.logs)
    | .err e =>
      ⟨.returned (some e), received + 1, errCh, r.metrics,
        logs ++ r.logs ++ [⟨some e, [("validator", validator.Account)], [], "failed to fetch info"⟩]⟩

/-- The method `fetchInfo`, for the completion order `order` of its three goroutines. -/
def fetchInfo {F : Type} (env : Env F) (w : ValidatorsAPIWatcher F)
    (validator : TrackedValidator) (order : List Fetch) : InfoResult F :=
  fetchInfoLoop env validator 3 w order 0 []

/-- The three goroutines run to completion in the order `order`, whether or not `fetchInfo` has
returned in between: an error of one does not stop the others, a panic ends the process. The
outcome is `panic` if one panicked and `nil` otherwise. -/
def runAll {F : Type} (env : Env F) (validator : TrackedValidator) :
    ValidatorsAPIWatcher F → List Fetch → Outcome × Metrics F
  | w, [] => (.nil, w.metrics)
  | w, f :: rest =>
    let r := runFetch env w validator f
    match r.outcome with
    | .panic => (.panic, r.metrics)
    | _ => runAll env validator { w with metrics := r.metrics } rest

/-- Whether the characters `pat` open the text `text`. -/
def startsWith : List Char → List Char → Bool
  | [], _ => true
  | _ :: _, [] => false
  | p :: ps, c :: cs => p = c && startsWith ps cs

/-- Whether the characters `pat` occur, contiguously, somewhere in `text`. -/
def containsText (pat : List Char) : List Char → Bool
  | [] => pat.isEmpty
  | c :: cs => startsWith pat (c :: cs) || containsText pat cs

/-- The gauges of the section "Metrics from the validator API watcher" of `New`. -/
def validatorAPIFields : List MetricField :=
  [ .ValidatorBalanceAvailable, .ValidatorCommission, .ValidatorBalanceDelegated,
    .ValidatorBalanceReward, .ValidatorBalanceUnBonding, .ValidatorDelegators, .ValidatorStatus,
    .ValidatorTokens, .ValidatorCommissionRate, .ValidatorDelegatorShares,
    .ValidatorUnbondingTime, .ValidatorMinSelfDelegation, .ValidatorParticipationRate,
    .ValidatorParticipationTotal, .ValidatorSigningInfo, .ValidatorUptime,
    .ValidatorVotingPowerPercent, .ValidatorCumulativeShare, .ValidatorParticipationVoted,
    .ValidatorSigningInfoBondedHeight, .ValidatorSigningInfoTombstoned,
    .ValidatorUptimeHistoricalEarliestHeight, .ValidatorUptimeHistoricalLastSyncHeight,
    .ValidatorUptimeHistoricalSuccessBlocks, .ValidatorUptimeWindowUptime,
    .ValidatorUptimeWindowStart, .ValidatorUptimeWindowEnd ]

/-- The request URL of each goroutine. -/
def requestURL (validator : TrackedValidator) : Fetch → String
  | .account => accountURL validator
  | .validator => validatorURL validator
  | .delegator => delegatorsURL validator

/-- The failure conditions of a fetch as the specification lists them: the request cannot be
built, the transport returns an error, the status is not 200, the body cannot be read, or the
body does not decode into the typed record. -/
def failsWith {α : Type} (unmarshal : JSON → Option α) : RoundTrip → Bool
  | .requestError _ => true
  | .transportError _ => true
  | .response StatusCode body =>
    StatusCode ≠ 200 ||
      match body with
      | .readError _ => true
      | .bytes none => true
      | .bytes (some value) => (unmarshal value).isNone

/-- Whether the fetch of goroutine `f` fails, in the sense of `failsWith`, for the answer the
client gives to its request. -/
def fetchFailure {F : Type} (env : Env F) (w : ValidatorsAPIWatcher F)
    (validator : TrackedValidator) : Fetch → Bool
  | .account => failsWith unmarshalAccount (w.api (accountURL validator))
  | .validator => failsWith (unmarshalValidator env) (w.api (validatorURL validator))
  | .delegator => failsWith unmarshalDelegators (w.api (delegatorsURL validator))

/-- The registry state after a write whose label values fit the gauge. -/
def Metrics.put {F : Type} (m : Metrics F) (wr : Write F) : Metrics F :=
  { m with vec := fun f => if f = wr.field then (m.vec f).Set wr.lvs wr.value else m.vec f }

/-- A registry state in which every gauge of the validator API section has two label names. -/
def Metrics.twoLabels {F : Type} (m : Metrics F) : Prop :=
  ∀ f ∈ validatorAPIFields, (m.vec f).labelNames.length = 2

/-- The writes that the fetch of goroutine `f` reaches for the answer the client gives: its
"update metrics" statements when the response has status 200 and its body decodes, none
otherwise. -/
def fetchWrites {F : Type} (env : Env F) (w : ValidatorsAPIWatcher F)
    (validator : TrackedValidator) : Fetch → List (Write F)
  | .account =>
    match w.api (accountURL validator) with
    | .response StatusCode (.bytes (some value)) =>
      if StatusCode ≠ 200 then []
      else
        match unmarshalAccount value with
        | some account => accountWrites env validator account
        | none => []
    | _ => []
  | .validator =>
    match w.api (validatorURL validator) with
    | .response StatusCode (.bytes (some value)) =>
      if StatusCode ≠ 200 then []
      else
        match unmarshalValidator env value with
        | some apiValidator => validatorWrites env validator apiValidator
        | none => []
    | _ => []
  | .delegator =>
    match w.api (delegatorsURL validator) with
    | .response StatusCode (.bytes (some value)) =>
      if StatusCode ≠ 200 then []
      else
        match unmarshalDelegators value with
        | some apiResponse => delegatorWrites env validator apiResponse
        | none => []
    | _ => []

/-- The gauges that the fetch of goroutine `f` writes. -/
def writtenFields : Fetch → List MetricField
  | .account =>
    [ .ValidatorBalanceAvailable, .ValidatorCommission, .ValidatorBalanceDelegated,
      .ValidatorBalanceReward, .ValidatorBalanceUnBonding ]
  | .validator =>
    [ .ValidatorStatus, .ValidatorTokens, .ValidatorCommissionRate, .ValidatorDelegatorShares,
      .ValidatorUnbondingTime, .ValidatorMinSelfDelegation, .ValidatorParticipationRate,
      .ValidatorParticipationTotal, .ValidatorParticipationVoted,
      .ValidatorSigningInfoBondedHeight, .ValidatorSigningInfoTombstoned,
      .ValidatorUptimeHistoricalEarliestHeight, .ValidatorUptimeHistoricalLastSyncHeight,
      .ValidatorUptimeHistoricalSuccessBlocks, .ValidatorUptimeWindowUptime,
      .ValidatorUptimeWindowStart, .ValidatorUptimeWindowEnd, .ValidatorVotingPowerPercent,
      .ValidatorCumulativeShare ]
  | .delegator => [ .ValidatorDelegators ]

/-! ## A small environment for evaluating the model -/

/-- An environment over the integers: `float64(x)` is `x`, only integer literals parse as
floats, and no time parses. It serves to run the definitions on sample inputs. -/
def sampleEnv : Env Int :=
  { ofInt := fun x => x, parseFloat := parseInt, parseTime := fun _ => none }

/-- A tracked validator for the sample runs. -/
def sampleValidator : TrackedValidator :=
  { Address := "X", Name := "Y", Account := "abc", OperatorAddress := "op" }

/-- The body `{"balance":{"available":1000,"commission":50}}`. -/
def accountFixture : JSON :=
  .obj [("balance", .obj [("available", .num "1000"), ("commission", .num "50")])]

/-- A validator body with an unparseable decimal string:
`{"status":3,"tokens":77,"delegator_shares":"not-a-number"}`. -/
def validatorFixture : JSON :=
  .obj [("status", .num "3"), ("tokens", .num "77"), ("delegator_shares", .str "not-a-number")]

/-- The body `{"validatorDelegators":12}`. -/
def delegatorsFixture : JSON :=
  .obj [("validatorDelegators", .num "12")]

/-- A client that answers the three requests for `sampleValidator` with status 200 and the
three fixtures, and any other request with 404. -/
def fixtureAPI (url : String) : RoundTrip :=
  if url = "https://api.testnet.storyscan.app/accounts/abc" then
    .response 200 (.bytes (some accountFixture))
  else if url = "https://api.testnet.storyscan.app/validators/op" then
    .response 200 (.bytes (some validatorFixture))
  else if url = "https://api.testnet.storyscan.app/validators/op/delegators" then
    .response 200 (.bytes (some delegatorsFixture))
  else .response 404 (.bytes none)

/-- The watcher over the registry built by `New "cosmos"` and the fixture client. -/
def fixtureWatcher : ValidatorsAPIWatcher Int :=
  { metrics := New "cosmos", validators := [sampleValidator], api := fixtureAPI }

/-- A validator the fixture client does not know: its three requests are answered with 404. -/
def unknownValidator : TrackedValidator :=
  { Address := "X2", Name := "Y2", Account := "zzz", OperatorAddress := "nop" }

/-- A registry in which every collector takes the two labels `address` and `name`; the writes
of the watcher succeed on it. -/
def twoLabelMetrics {F : Type} (ns : String) : Metrics F :=
  { Registry := []
    vec := fun f => { (New ns).vec f with labelNames := ["address", "name"] } }

/-- The fixture client over `twoLabelMetrics`. -/
def twoLabelWatcher : ValidatorsAPIWatcher Int :=
  { metrics := twoLabelMetrics "cosmos", validators := [sampleValidator], api := fixtureAPI }

/-- The scheme and authority that the three `requestURL` literals of the source share. -/
def baseAuthority : String := "https://api.testnet.storyscan.app"

/-- A client that refuses every request with an error that carries the request URL. -/
def echoAPI (url : String) : RoundTrip := .transportError url

/-- The target that the fetch of goroutine `f` requests under the watcher `w`: the URL that
comes back when the client of `w` is replaced by `echoAPI`. -/
def requestedTarget {F : Type} (env : Env F) (w : ValidatorsAPIWatcher F)
    (validator : TrackedValidator) (f : Fetch) : Option String :=
  match (runFetch env { w with api := echoAPI } validator f).outcome with
  | .err (.transport url) => some url
  | _ => none

/-! ## pkg/metrics/metrics.go: `Register` -/

/-- The library function `prometheus.BuildFQName`, by its documentation: the components are
joined by "_", empty components are ignored, and an empty `name` gives the empty string. -/
def BuildFQName (ns subsystem name : String) : String :=
  if name = "" then ""
  else if ns ≠ "" ∧ subsystem ≠ "" then ns ++ "_" ++ subsystem ++ "_" ++ name
  else if ns ≠ "" then ns ++ "_" ++ name
  else if subsystem ≠ "" then subsystem ++ "_" ++ name
  else name

/-- The fully-qualified metric name of a collector built by `NewGaugeVec` or `NewCounterVec`
from options without subsystem. -/
def MetricVec.fqName {F : Type} (g : MetricVec F) : String :=
  BuildFQName g.opts.Namespace "" g.opts.Name

/-- Modelled from the spec: the registration contract of the registry, whose implementation
(`prometheus.Registry.MustRegister`) is outside src/: "duplicate registration is a fatal
startup error". A collector is given by the names of its descriptors; the result is the
registry with these names added, or `none` when one of them is registered already, in which
case `MustRegister` panics. Whether a descriptor is valid on its own is not looked at. -/
def MustRegister (registry : List String) (descs : List String) : Option (List String) :=
  if descs.any (fun d => registry.contains d) then none else some (registry ++ descs)

/-- The descriptor names of the two library collectors that `Register` registers first,
`collectors.NewProcessCollector(collectors.ProcessCollectorOpts{})` and
`collectors.NewGoCollector()`, taken as parameters. -/
structure Collectors where
  process : List String
  go : List String

/-- The fields that `Register` registers after the two library collectors, in source order. -/
def registerOrder : List MetricField :=
  [ .BlockHeight, .ActiveSet, .SeatPrice, .Rank, .ProposedBlocks, .ValidatedBlocks,
    .MissedBlocks, .SoloMissedBlocks, .ConsecutiveMissedBlocks, .TrackedBlocks, .Transactions,
    .SkippedBlocks, .Tokens, .IsBonded, .Commission, .IsJailed, .Vote, .NodeBlockHeight,
    .NodeSynced, .UpgradePlan, .ProposalEndTime, .LastValidatedBlockTime,
    .ValidatorBalanceAvailable, .ValidatorCommission, .ValidatorBalanceDelegated,
    .ValidatorBalanceReward, .ValidatorBalanceUnBonding, .ValidatorDelegators, .ValidatorStatus,
    .ValidatorTokens, .ValidatorCommissionRate, .ValidatorDelegatorShares,
    .ValidatorUnbondingTime, .ValidatorMinSelfDelegation, .ValidatorParticipationRate,
    .ValidatorSigningInfo, .ValidatorUptime, .ValidatorVotingPowerPercent,
    .ValidatorCumulativeShare, .ValidatorParticipationTotal, .ValidatorParticipationVoted,
    .ValidatorSigningInfoBondedHeight, .ValidatorSigningInfoTombstoned,
    .ValidatorUptimeHistoricalEarliestHeight, .ValidatorUptimeHistoricalLastSyncHeight,
    .ValidatorUptimeHistoricalSuccessBlocks, .ValidatorUptimeWindowUptime,
    .ValidatorUptimeWindowStart, .ValidatorUptimeWindowEnd ]

/-- The method `Register`: the process collector, the Go collector, then the collectors of the
struct in the order of `registerOrder`; `none` when a `MustRegister` panics. -/
def Register {F : Type} (lib : Collectors) (m : Metrics F) : Option (Metrics F) :=
  match MustRegister m.Registry lib.process with
  | none => none
  | some r1 =>
    match MustRegister r1 lib.go with
    | none => none
    | some r2 =>
      match registerOrder.foldlM (fun r f => MustRegister r [(m.vec f).fqName]) r2 with
      | none => none
      | some r3 => some { m with Registry := r3 }

/-- The library collectors do not get in the way of the namespace `ns`: no descriptor name of
the Go collector is one of the process collector, and no collector of `New ns` has the name of
a descriptor of either. -/
def Collectors.compatible (lib : Collectors) (ns : String) : Bool :=
  lib.go.all (fun d => !lib.process.contains d) &&
    registerOrder.all (fun f =>
      !(lib.process ++ lib.go).contains ((New ns : Metrics Unit).vec f).fqName)

/-- A few descriptor names of the process collector and of the Go collector. -/
def sampleCollectors : Collectors :=
  { process := ["process_cpu_seconds_total", "process_open_fds", "process_start_time_seconds"]
    go := ["go_goroutines", "go_threads", "go_info", "go_gc_duration_seconds"] }

/-! ## pkg/watcher/validators_api.go: `Start` -/

/-- The case that the `select` of `Start` takes at a tick-wait: `<-ctx.Done()` or
`<-ticker.C`. When both are ready the runtime takes either. -/
inductive Select
  | done
  | tick
deriving DecidableEq, Repr

/-- The surroundings of one run of `Start`. -/
structure Script where
  /-- Where cancellation is signalled, if at all: the poll round and the position in it. The
  position `i` is the validator boundary before the fetch of the validator with index `i`; the
  number of validators is the tick-wait after the round. -/
  cancel : Option (Nat × Nat)
  /-- Whether, at the tick-wait after a round by which cancellation has been signalled, a tick
  of the ticker is ready as well and the runtime takes it: when both cases of a `select` are
  ready, either may be taken. -/
  tickFirst : Nat → Bool
  /-- The completion order of the three goroutines of the call at a round and position. -/
  sched : Nat → Nat → List Fetch

/-- Whether cancellation has been signalled when the position `pos` of the round `round` is
reached. -/
def Script.cancelled (s : Script) (round pos : Nat) : Bool :=
  match s.cancel with
  | none => false
  | some (r, p) => r < round || (r = round && p ≤ pos)

/-- The case that the `select` of `Start` takes at the tick-wait after the round `round`, the
tick-wait being the position `validators` of the round. While cancellation has not been
signalled the `select` waits for the next tick, which the ticker delivers; once cancellation
has been signalled, before the tick-wait is reached or during the wait, the `select` takes the
cancellation case, unless a tick is ready as well and is taken first. -/
def Script.select (s : Script) (validators round : Nat) : Select :=
  if s.cancelled round validators then
    if s.tickFirst round then .tick else .done
  else .tick

/-- Modelled from the spec: the client under the request context, whose implementation
(`net/http`) is outside src/: "in-flight fetches finish or fail on their own via the same
cancellation propagated into their request context". A request made once cancellation has been
signalled fails in the transport. -/
def withContext (cancelled : Bool) (api : String → RoundTrip) : String → RoundTrip :=
  fun url => if cancelled then .transportError "context canceled" else api url

/-- One call `w.fetchInfo(ctx, validator)` of `Start`: where it was made, whether cancellation
had been signalled when it began, and how it ended. -/
structure Call where
  round : Nat
  pos : Nat
  validator : TrackedValidator
  cancelled : Bool
  outcome : InfoOutcome
deriving DecidableEq, Repr

/-- What a run has done so far: the registry state, the error-level log and the calls of
`fetchInfo`, in order. -/
structure RunState (F : Type) where
  metrics : Metrics F
  logs : List LogEntry
  calls : List Call

/-- The goroutines that `fetchInfo` left behind when it returned run to their end: an error of
one does not stop the others, a panic ends the process. -/
def finishGoroutines {F : Type} (env : Env F) (validator : TrackedValidator) :
    ValidatorsAPIWatcher F → List Fetch → FetchResult F
  | w, [] => ⟨.nil, w.metrics, []⟩
  | w, f :: rest =>
    let r := runFetch env w validator f
    match r.outcome with
    | .panic => ⟨.panic, r.metrics, r.logs⟩
    | _ =>
      let done := finishGoroutines env validator { w with metrics := r.metrics } rest
      ⟨done.outcome, done.metrics, r.logs ++ done.logs⟩

/-- How a poll round ends: it reaches the tick-wait; or a goroutine panics, which ends the
process; or a call of `fetchInfo` waits for a value that no goroutine will send. -/
inductive RoundEnd
  | completed
  | aborted
  | blocked
deriving DecidableEq, Repr

/-- The loop `for _, validator := range w.validators` of `Start` in the round `round`, from the
position `pos` on. The goroutines that a call leaves behind are taken to end before the next
call begins. -/
def pollRound {F : Type} (env : Env F) (w : ValidatorsAPIWatcher F) (s : Script) (round : Nat) :
    Nat → List TrackedValidator → RunState F → RoundEnd × RunState F
  | _, [], st => (.completed, st)
  | pos, validator :: rest, st =>
    let cancelled := s.cancelled round pos
    let now : ValidatorsAPIWatcher F :=
      { metrics := st.metrics, validators := w.validators, api := withContext cancelled w.api }
    let r := fetchInfo env now validator (s.sched round pos)
    let calls := st.calls ++ [⟨round, pos, validator, cancelled, r.outcome⟩]
    match r.outcome with
    | .panic => (.aborted, ⟨r.metrics, st.logs ++ r.logs, calls⟩)
    | .blocked => (.blocked, ⟨r.metrics, st.logs ++ r.logs, calls⟩)
    | .returned err =>
      let entry : List LogEntry :=
        match err with
        | some e => [⟨some e, [("validator", validator.Account)], [], "failed to fetch info"⟩]
        | none => []
      let left := finishGoroutines env validator { now with metrics := r.metrics } r.pending
      match left.outcome with
      | .panic => (.aborted, ⟨left.metrics, st.logs ++ r.logs ++ entry ++ left.logs, calls⟩)
      | _ =>
        pollRound env w s round (pos + 1) rest
          ⟨left.metrics, st.logs ++ r.logs ++ entry ++ left.logs, calls⟩

/-- How a run of `Start` ends: it returns `nil`; or the process ends with a panic; or a call of
`fetchInfo` never returns; or it is still running after the rounds looked at. -/
inductive StartEnd
  | returned
  | aborted
  | blocked
  | running
deriving DecidableEq, Repr

/-- The result of a run of `Start`. -/
structure StartResult (F : Type) where
  ending : StartEnd
  state : RunState F

/-- The loop `for { ... }` of `Start`, taken up at the position `pos` of the round `round` with
the validators `vs` of that round still to be fetched: the rest of the poll round, then the
`select` of the tick-wait, which returns on the cancellation case and goes on to the next round
over all validators on a tick. The loop of the source has no bound; the first argument bounds
the number of rounds looked at, and a run that has not ended within them is `running`. -/
def StartLoop {F : Type} (env : Env F) (w : ValidatorsAPIWatcher F) (s : Script) :
    Nat → Nat → Nat → List TrackedValidator → RunState F → StartResult F
  | 0, _, _, _, st => ⟨.running, st⟩
  | fuel + 1, round, pos, vs, st =>
    match pollRound env w s round pos vs st with
    | (.completed, st1) =>
      match s.select w.validators.length round with
      | .done => ⟨.returned, st1⟩
      | .tick => StartLoop env w s fuel (round + 1) 0 w.validators st1
    | (.aborted, st1) => ⟨.aborted, st1⟩
    | (.blocked, st1) => ⟨.blocked, st1⟩

/-- The method `Start`, for the surroundings `s`, looked at for `rounds` poll rounds. -/
def Start {F : Type} (env : Env F) (w : ValidatorsAPIWatcher F) (s : Script) (rounds : Nat) :
    StartResult F :=
  StartLoop env w s rounds 0 0 w.validators ⟨w.metrics, [], []⟩

/-- A client that answers every request with status 500. -/
def status500API (_ : String) : RoundTrip := .response 500 (.bytes none)

/-- The watcher over the registry built by `New "cosmos"`, the validators `sampleValidator` and
`unknownValidator`, and `status500API`. -/
def twoValidatorsWatcher : ValidatorsAPIWatcher Int :=
  { metrics := New "cosmos", validators := [sampleValidator, unknownValidator],
    api := status500API }

/-- Cancellation is signalled in the first poll round, at the validator boundary between the
first and the second validator; no tick is ready at the tick-wait after the round. -/
def cancelAtBoundary : Script :=
  { cancel := some (0, 1), tickFirst := fun _ => false,
    sched := fun _ _ => [.account, .validator, .delegator] }

/-- The watcher over `twoLabelMetrics`, the validators `sampleValidator` and
`unknownValidator`, and the fixture client: the requests of the first are answered with the
fixtures, those of the second with 404. -/
def twoLabelTwoValidators : ValidatorsAPIWatcher Int :=
  { metrics := twoLabelMetrics "cosmos", validators := [sampleValidator, unknownValidator],
    api := fixtureAPI }

/-- Cancellation is signalled during the tick-wait after the second poll round. -/
def tickThenCancel : Script :=
  { cancel := some (1, 2), tickFirst := fun _ => false,
    sched := fun _ _ => [.account, .validator, .delegator] }

/-- Cancellation is signalled before the first poll round; a tick is ready at the first
tick-wait and is taken first. -/
def cancelledFromStart : Script :=
  { cancel := some (0, 0), tickFirst := fun round => round = 0,
    sched := fun _ _ => [.account, .validator, .delegator] }

/-- Cancellation is never signalled. -/
def neverCancelled : Script :=
  { cancel := none, tickFirst := fun _ => false,
    sched := fun _ _ => [.account, .validator, .delegator] }

/-- A client that answers the account request of `sampleValidator` with status 500 and every
other request as `fixtureAPI` does: the validator and delegators requests of `sampleValidator`
with status 200 and the fixtures, the requests of any other validator with 404. -/
def accountDownAPI (url : String) : RoundTrip :=
  if url = "https://api.testnet.storyscan.app/accounts/abc" then .response 500 (.bytes none)
  else fixtureAPI url

/-- The watcher over the registry built by `New "cosmos"`, the validators `sampleValidator` and
`unknownValidator`, and `accountDownAPI`. -/
def accountDownWatcher : ValidatorsAPIWatcher Int :=
  { metrics := New "cosmos", validators := [sampleValidator, unknownValidator],
    api := accountDownAPI }

/-! ## Properties of the registry built by `New` -/

/-- On the registry built by `New`, a write with two label values to a gauge of the validator
API section panics. -/
theorem write_New_two_values {F : Type} (ns : String) (f : MetricField)
    (hf : f ∈ validatorAPIFields) (a b : String) (x : F) :
    (New ns : Metrics F).write ⟨f, [a, b], x⟩ = none := by
  simp only [validatorAPIFields, List.mem_cons, List.mem_singleton, List.not_mem_nil,
    or_false] at hf
  rcases hf with h | h | h | h | h | h | h | h | h | h | h | h | h | h | h | h | h | h | h | h |
    h | h | h | h | h | h | h <;> subst h <;> rfl

/-- On the registry built by `New`, the writes of `fetchAccount` stop with a panic at the first
one and change nothing. -/
theorem accountWrites_New {F : Type} (env : Env F) (ns : String) (v : TrackedValidator)
    (account : APIAccountResponse) :
    applyWrites (New ns) (accountWrites env v account) = (.panic, New ns) := rfl

/-- On the registry built by `New`, the writes of `fetchValidator` stop with a panic at the
first one and change nothing. -/
theorem validatorWrites_New {F : Type} (env : Env F) (ns : String) (v : TrackedValidator)
    (apiValidator : APIValidator F) :
    applyWrites (New ns) (validatorWrites env v apiValidator) = (.panic, New ns) := rfl

/-- On the registry built by `New`, the write of `fetchDelegator` panics and changes nothing. -/
theorem delegatorWrites_New {F : Type} (env : Env F) (ns : String) (v : TrackedValidator)
    (apiResponse : APIDelegatorsResponse) :
    applyWrites (New ns) (delegatorWrites env v apiResponse) = (.panic, New ns) := rfl

/-- On the registry built by `New`, no fetch returns `nil` and none changes the registry,
whatever the client answers. -/
theorem runFetch_New {F : Type} (env : Env F) (ns : String) (vs : List TrackedValidator)
    (api : String → RoundTrip) (v : TrackedValidator) (f : Fetch) :
    (runFetch env ⟨New ns, vs, api⟩ v f).outcome ≠ .nil ∧
      (runFetch env ⟨New ns, vs, api⟩ v f).metrics = New ns := by
  cases f
  · simp only [runFetch, fetchAccount]
    split
    · simp
    · simp
    · split
      · simp
      · split
        · simp
        · simp
        · split
          · simp
          · simp [accountWrites_New]
  · simp only [runFetch, fetchValidator]
    split
    · simp
    · simp
    · split
      · simp
      · split
        · simp
        · simp
        · split
          · simp
          · simp [validatorWrites_New]
  · simp only [runFetch, fetchDelegator]
    split
    · simp
    · simp
    · split
      · simp
      · split
        · simp
        · simp
        · split
          · simp
          · simp [delegatorWrites_New]

/-- C1: the code does not publish the fixture. On the registry built by `New "cosmos"`, the
response 200 with body `{"balance":{"available":1000,"commission":50}}` decodes to
available = 1000 and commission = 50, but `fetchAccount` panics at its first write, and
afterwards neither `validator_balance_available` nor `validator_balance_commission` holds a
value under the label tuple (X, Y). -/
theorem C1_fixture_not_published :
    (unmarshalAccount accountFixture).map
        (fun a => (a.Balance.Available, a.Balance.Commission)) = some (1000, 50) ∧
      (fetchAccount sampleEnv fixtureWatcher sampleValidator).outcome = .panic ∧
      ((fetchAccount sampleEnv fixtureWatcher sampleValidator).metrics.vec
        .ValidatorBalanceAvailable).values ["X", "Y"] = none ∧
      ((fetchAccount sampleEnv fixtureWatcher sampleValidator).metrics.vec
        .ValidatorCommission).values ["X", "Y"] = none := by
  decide

/-- C2: the code registers one label, not two. Each of the twenty-seven gauges of the validator
API section of `New` has the label names `["address"]`; none has `["address", "name"]`. -/
theorem C2_label_names_are_address_only (F : Type) (ns : String) :
    validatorAPIFields.map (fun f => ((New ns : Metrics F).vec f).labelNames)
      = List.replicate 27 ["address"] := rfl

/-- C3: the arities differ. Each of the twenty-five writes of the three fetches supplies two
label values to a gauge that `New` registered with one label name, and on the registry built
by `New` each of the three write sequences ends in a panic at its first write. -/
theorem C3_write_arity_mismatch (F : Type) (env : Env F) (ns : String) (v : TrackedValidator)
    (account : APIAccountResponse) (apiValidator : APIValidator F)
    (apiResponse : APIDelegatorsResponse) :
    (accountWrites env v account ++ validatorWrites env v apiValidator
        ++ delegatorWrites env v apiResponse).map
        (fun wr => (wr.lvs.length, ((New ns : Metrics F).vec wr.field).labelNames.length))
      = List.replicate 25 (2, 1) ∧
    (applyWrites (New ns) (accountWrites env v account)).1 = .panic ∧
    (applyWrites (New ns) (validatorWrites env v apiValidator)).1 = .panic ∧
    (applyWrites (New ns) (delegatorWrites env v apiResponse)).1 = .panic :=
  ⟨rfl, rfl, rfl, rfl⟩

/-! ## Failure paths of the fetches -/

/-- A sequence of writes never ends in a returned error. -/
theorem applyWrites_ne_err {F : Type} (ws : List (Write F)) (m : Metrics F) (e : FetchErr) :
    (applyWrites m ws).1 ≠ .err e := by
  induction ws generalizing m with
  | nil => simp [applyWrites]
  | cons wr rest ih =>
    simp only [applyWrites]
    split
    · simp
    · exact ih _

/-- C4: a failed fetch returns an error and leaves the registry as it was. For each of
`fetchAccount`, `fetchValidator` and `fetchDelegator` and every registry state: if the request
cannot be built, the transport fails, the status is not 200, the body cannot be read or the
body does not decode, then the fetch returns an error and the registry state after the call is
the state before it. -/
theorem C4_failed_fetch_keeps_registry {F : Type} (env : Env F) (w : ValidatorsAPIWatcher F)
    (v : TrackedValidator) (f : Fetch) (h : fetchFailure env w v f = true) :
    (∃ e, (runFetch env w v f).outcome = .err e) ∧ (runFetch env w v f).metrics = w.metrics := by
  cases f
  · simp only [fetchFailure] at h
    simp only [runFetch, fetchAccount]
    generalize w.api (accountURL v) = rt at h
    cases rt with
    | requestError msg => simp
    | transportError msg => simp
    | response code body =>
      by_cases hc : code = 200
      · subst hc
        cases body with
        | readError msg => simp
        | bytes value =>
          cases value with
          | none => simp
          | some j =>
            have hj : unmarshalAccount j = none := by simpa [failsWith] using h
            simp [hj]
      · simp [hc]
  · simp only [fetchFailure] at h
    simp only [runFetch, fetchValidator]
    generalize w.api (validatorURL v) = rt at h
    cases rt with
    | requestError msg => simp
    | transportError msg => simp
    | response code body =>
      by_cases hc : code = 200
      · subst hc
        cases body with
        | readError msg => simp
        | bytes value =>
          cases value with
          | none => simp
          | some j =>
            have hj : unmarshalValidator env j = none := by simpa [failsWith] using h
            simp [hj]
      · simp [hc]
  · simp only [fetchFailure] at h
    simp only [runFetch, fetchDelegator]
    generalize w.api (delegatorsURL v) = rt at h
    cases rt with
    | requestError msg => simp
    | transportError msg => simp
    | response code body =>
      by_cases hc : code = 200
      · subst hc
        cases body with
        | readError msg => simp
        | bytes value =>
          cases value with
          | none => simp
          | some j =>
            have hj : unmarshalDelegators j = none := by simpa [failsWith] using h
            simp [hj]
      · simp [hc]

/-- Witness of C4: the fixture client answers the delegators request of `unknownValidator` with 404,
so that fetch fails and the registry stays as it was. -/
theorem C4_failed_fetch_keeps_registry_witness :
    fetchFailure sampleEnv twoLabelWatcher unknownValidator .delegator = true ∧
      ((∃ e, (runFetch sampleEnv twoLabelWatcher unknownValidator .delegator).outcome = .err e) ∧
        (runFetch sampleEnv twoLabelWatcher unknownValidator .delegator).metrics
          = twoLabelWatcher.metrics) :=
  ⟨by decide, C4_failed_fetch_keeps_registry sampleEnv twoLabelWatcher unknownValidator .delegator
    (by decide)⟩

/-- C5: the status check fails exactly on a status other than 200. For each of the three fetches
and every response received without transport error, the fetch returns the status error if and
only if the status code differs from 200, and the text of that error is
"unexpected status code: " followed by the code in decimal. -/
theorem C5_status_check {F : Type} (env : Env F) (w : ValidatorsAPIWatcher F)
    (v : TrackedValidator) (f : Fetch) (code : Int) (body : Body)
    (h : w.api (requestURL v f) = .response code body) :
    ((runFetch env w v f).outcome = .err (.status code) ↔ code ≠ 200) ∧
      (FetchErr.status code).Error = some ("unexpected status code: " ++ toString code) := by
  refine ⟨?_, rfl⟩
  cases f
  · simp only [requestURL] at h
    simp only [runFetch, fetchAccount, h]
    by_cases hc : code = 200
    · subst hc
      cases body with
      | readError msg => simp
      | bytes value =>
        cases value with
        | none => simp
        | some j =>
          cases hj : unmarshalAccount j with
          | none => simp [hj]
          | some a =>
            simp only [hj, true_iff, ne_eq, not_true_eq_false, iff_false]
            exact applyWrites_ne_err _ _ _
    · simp [hc]
  · simp only [requestURL] at h
    simp only [runFetch, fetchValidator, h]
    by_cases hc : code = 200
    · subst hc
      cases body with
      | readError msg => simp
      | bytes value =>
        cases value with
        | none => simp
        | some j =>
          cases hj : unmarshalValidator env j with
          | none => simp [hj]
          | some a =>
            simp only [hj, true_iff, ne_eq, not_true_eq_false, iff_false]
            exact applyWrites_ne_err _ _ _
    · simp [hc]
  · simp only [requestURL] at h
    simp only [runFetch, fetchDelegator, h]
    by_cases hc : code = 200
    · subst hc
      cases body with
      | readError msg => simp
      | bytes value =>
        cases value with
        | none => simp
        | some j =>
          cases hj : unmarshalDelegators j with
          | none => simp [hj]
          | some a =>
            simp only [hj, true_iff, ne_eq, not_true_eq_false, iff_false]
            exact applyWrites_ne_err _ _ _
    · simp [hc]

/-- Witness of C5: the account request of `unknownValidator` is answered with 404, and the
fetch returns the error whose text is "unexpected status code: 404". -/
theorem C5_status_check_witness :
    fixtureWatcher.api (requestURL unknownValidator .account) = .response 404 (.bytes none) ∧
      (((runFetch sampleEnv fixtureWatcher unknownValidator .account).outcome
          = .err (.status 404) ↔ (404 : Int) ≠ 200) ∧
        (FetchErr.status 404).Error = some ("unexpected status code: " ++ toString (404 : Int))) :=
  ⟨rfl, C5_status_check sampleEnv fixtureWatcher unknownValidator .account 404 (.bytes none) rfl⟩

/-- The texts of the status error for 204, 301, 404 and 500. -/
theorem status_error_texts :
    [204, 301, 404, 500].map (fun code => (FetchErr.status code).Error)
      = [some "unexpected status code: 204", some "unexpected status code: 301",
         some "unexpected status code: 404", some "unexpected status code: 500"] := by
  decide

/-! ## Unparseable and malformed fields -/

/-- The function `MustFloat64` returns 0 when parsing fails. -/
theorem MustFloat64_of_parse_error {F : Type} (env : Env F) (val : String)
    (h : env.parseFloat val = none) : MustFloat64 env val = env.ofInt 0 := by
  simp [MustFloat64, h]

/-- The function `MustFloat64` returns the parsed value when parsing succeeds. -/
theorem MustFloat64_of_parsed {F : Type} (env : Env F) (val : String) (x : F)
    (h : env.parseFloat val = some x) : MustFloat64 env val = x := by
  simp [MustFloat64, h]

/-- On a registry whose gauges take two labels, the validator fixture with
`delegator_shares = "not-a-number"` is published: the fetch returns `nil`,
`validator_delegator_shares` is 0, and status and tokens hold 3 and 77. -/
theorem validatorFixture_on_twoLabelMetrics :
    (fetchValidator sampleEnv twoLabelWatcher sampleValidator).outcome = .nil ∧
      ((fetchValidator sampleEnv twoLabelWatcher sampleValidator).metrics.vec
        .ValidatorDelegatorShares).values ["X", "Y"] = some 0 ∧
      ((fetchValidator sampleEnv twoLabelWatcher sampleValidator).metrics.vec
        .ValidatorStatus).values ["X", "Y"] = some 3 ∧
      ((fetchValidator sampleEnv twoLabelWatcher sampleValidator).metrics.vec
        .ValidatorTokens).values ["X", "Y"] = some 77 := by
  decide

/-- C6: the code does not publish 0 for the unparseable field. On the registry built by
`New "cosmos"`, the response 200 with body
`{"status":3,"tokens":77,"delegator_shares":"not-a-number"}` decodes, and `MustFloat64` maps
"not-a-number" to 0, but `fetchValidator` panics at its first write: afterwards
`validator_delegator_shares` holds no value under (X, Y), and neither do `validator_status` and
`validator_tokens`. -/
theorem C6_unparseable_field_not_published :
    (unmarshalValidator sampleEnv validatorFixture).map (fun a => a.DelegatorShares)
        = some "not-a-number" ∧
      MustFloat64 sampleEnv "not-a-number" = 0 ∧
      (fetchValidator sampleEnv fixtureWatcher sampleValidator).outcome = .panic ∧
      ((fetchValidator sampleEnv fixtureWatcher sampleValidator).metrics.vec
        .ValidatorDelegatorShares).values ["X", "Y"] = none ∧
      ((fetchValidator sampleEnv fixtureWatcher sampleValidator).metrics.vec
        .ValidatorStatus).values ["X", "Y"] = none ∧
      ((fetchValidator sampleEnv fixtureWatcher sampleValidator).metrics.vec
        .ValidatorTokens).values ["X", "Y"] = none := by
  decide

/-- The three fetches write to pairwise distinct gauges: no gauge is written twice by the
twenty-five writes of one round. -/
theorem write_fields_nodup {F : Type} (env : Env F) (v : TrackedValidator)
    (account : APIAccountResponse) (apiValidator : APIValidator F)
    (apiResponse : APIDelegatorsResponse) :
    ((accountWrites env v account ++ validatorWrites env v apiValidator
        ++ delegatorWrites env v apiResponse).map (fun wr => wr.field)).Nodup := by
  simp only [accountWrites, validatorWrites, delegatorWrites, List.cons_append, List.nil_append,
    List.map_cons, List.map_nil]
  decide

/-- On a registry whose gauges take two labels, the three fixtures are published with the same
values in each of the six completion orders. -/
theorem runAll_on_twoLabelMetrics :
    completionOrders.map (fun o =>
        let done := runAll sampleEnv sampleValidator twoLabelWatcher o
        (done.1, (done.2.vec .ValidatorBalanceAvailable).values ["X", "Y"],
          (done.2.vec .ValidatorCommission).values ["X", "Y"],
          (done.2.vec .ValidatorTokens).values ["X", "Y"],
          (done.2.vec .ValidatorDelegators).values ["X", "Y"]))
      = List.replicate 6 (.nil, some 1000, some 50, some 77, some 12) := by
  decide

/-- On the registry built by `New`, the three goroutines leave the registry as `New` built it,
in whatever order they complete and whatever the client answers. -/
theorem runAll_New {F : Type} (env : Env F) (ns : String) (vs : List TrackedValidator)
    (api : String → RoundTrip) (v : TrackedValidator) (order : List Fetch) :
    (runAll env v ⟨New ns, vs, api⟩ order).2 = New ns := by
  induction order with
  | nil => rfl
  | cons f rest ih =>
    have hm := (runFetch_New env ns vs api v f).2
    simp only [runAll]
    split
    · exact hm
    · rw [hm]
      exact ih

/-- C8: the code does not reach the fixture-derived state. The three fetches write to pairwise
distinct gauges, but on the registry built by `New "cosmos"`, with the three fixtures answered
with status 200, each of the six completion orders ends in a panic at the first write of the
first fetch, and afterwards `validator_balance_available`, `validator_tokens` and
`validator_delegators` hold no value under (X, Y). -/
theorem C8_no_order_publishes_fixture :
    completionOrders.map (fun o =>
        let done := runAll sampleEnv sampleValidator fixtureWatcher o
        (done.1, (done.2.vec .ValidatorBalanceAvailable).values ["X", "Y"],
          (done.2.vec .ValidatorTokens).values ["X", "Y"],
          (done.2.vec .ValidatorDelegators).values ["X", "Y"]))
      = List.replicate 6 (.panic, none, none, none) := by
  decide

/-! ## The receive loop of `fetchInfo` -/

/-- Whether a fetch returns a given error does not depend on the registry state. -/
theorem runFetch_err_of_same_api {F : Type} (env : Env F) (w w0 : ValidatorsAPIWatcher F)
    (hapi : w.api = w0.api) (v : TrackedValidator) (f : Fetch) (e : FetchErr)
    (h : (runFetch env w v f).outcome = .err e) : (runFetch env w0 v f).outcome = .err e := by
  cases f
  · simp only [runFetch, fetchAccount, hapi] at h ⊢
    generalize w0.api (accountURL v) = rt at h ⊢
    cases rt with
    | requestError msg => simpa using h
    | transportError msg => simpa using h
    | response code body =>
      by_cases hc : code = 200
      · subst hc
        cases body with
        | readError msg => simpa using h
        | bytes value =>
          cases value with
          | none => simpa using h
          | some j =>
            cases hj : unmarshalAccount j with
            | none => simpa [hj] using h
            | some a =>
              simp only [hj, ne_eq, not_true_eq_false, if_false] at h
              exact absurd h (applyWrites_ne_err _ _ _)
      · simpa [hc] using h
  · simp only [runFetch, fetchValidator, hapi] at h ⊢
    generalize w0.api (validatorURL v) = rt at h ⊢
    cases rt with
    | requestError msg => simpa using h
    | transportError msg => simpa using h
    | response code body =>
      by_cases hc : code = 200
      · subst hc
        cases body with
        | readError msg => simpa using h
        | bytes value =>
          cases value with
          | none => simpa using h
          | some j =>
            cases hj : unmarshalValidator env j with
            | none => simpa [hj] using h
            | some a =>
              simp only [hj, ne_eq, not_true_eq_false, if_false] at h
              exact absurd h (applyWrites_ne_err _ _ _)
      · simpa [hc] using h
  · simp only [runFetch, fetchDelegator, hapi] at h ⊢
    generalize w0.api (delegatorsURL v) = rt at h ⊢
    cases rt with
    | requestError msg => simpa using h
    | transportError msg => simpa using h
    | response code body =>
      by_cases hc : code = 200
      · subst hc
        cases body with
        | readError msg => simpa using h
        | bytes value =>
          cases value with
          | none => simpa using h
          | some j =>
            cases hj : unmarshalDelegators j with
            | none => simpa [hj] using h
            | some a =>
              simp only [hj, ne_eq, not_true_eq_false, if_false] at h
              exact absurd h (applyWrites_ne_err _ _ _)
      · simpa [hc] using h

/-- The receive loop counts what it receives: returning `nil` it has received one value per
iteration; returning an error it has received at least one value and at most one per
iteration; in both cases the goroutines not yet received from are those after the received
ones in the completion order. -/
theorem fetchInfoLoop_received {F : Type} (env : Env F) (v : TrackedValidator) (n : Nat) :
    ∀ (w : ValidatorsAPIWatcher F) (errCh : List Fetch) (received : Nat) (logs : List LogEntry),
      ((fetchInfoLoop env v n w errCh received logs).outcome = .returned none →
          (fetchInfoLoop env v n w errCh received logs).received = received + n ∧
          (fetchInfoLoop env v n w errCh received logs).pending = errCh.drop n) ∧
      (∀ e, (fetchInfoLoop env v n w errCh received logs).outcome = .returned (some e) →
          received < (fetchInfoLoop env v n w errCh received logs).received ∧
          (fetchInfoLoop env v n w errCh received logs).received ≤ received + n ∧
          (fetchInfoLoop env v n w errCh received logs).pending
            = errCh.drop ((fetchInfoLoop env v n w errCh received logs).received - received)) := by
  induction n with
  | zero =>
    intro w errCh received logs
    simp [fetchInfoLoop]
  | succ n ih =>
    intro w errCh received logs
    cases errCh with
    | nil => simp [fetchInfoLoop]
    | cons f rest =>
      simp only [fetchInfoLoop]
      cases hout : (runFetch env w v f).outcome with
      | panic => simp
      | nil =>
        simp only []
        have h := ih { w with metrics := (runFetch env w v f).metrics } rest (received + 1)
          (logs ++ (runFetch env w v f).logs)
        refine ⟨fun h0 => ?_, fun e he => ?_⟩
        · obtain ⟨h1, h2⟩ := h.1 h0
          exact ⟨by omega, by simpa using h2⟩
        · obtain ⟨h1, h2, h3⟩ := h.2 e he
          refine ⟨by omega, by omega, ?_⟩
          rw [h3]
          have hk : (fetchInfoLoop env v n { w with metrics := (runFetch env w v f).metrics } rest
              (received + 1) (logs ++ (runFetch env w v f).logs)).received - received
              = ((fetchInfoLoop env v n { w with metrics := (runFetch env w v f).metrics } rest
              (received + 1) (logs ++ (runFetch env w v f).logs)).received - (received + 1)) + 1 := by
            omega
          rw [hk, List.drop_succ_cons]
      | err e0 =>
        simp

/-- An error returned by the receive loop is the error returned by one of the goroutines, and
the loop has logged it together with the account of the validator. -/
theorem fetchInfoLoop_error {F : Type} (env : Env F) (v : TrackedValidator)
    (w0 : ValidatorsAPIWatcher F) (n : Nat) :
    ∀ (w : ValidatorsAPIWatcher F) (errCh : List Fetch) (received : Nat) (logs : List LogEntry)
      (e : FetchErr), w.api = w0.api →
      (fetchInfoLoop env v n w errCh received logs).outcome = .returned (some e) →
      (∃ f ∈ errCh, (runFetch env w0 v f).outcome = .err e) ∧
        (⟨some e, [("validator", v.Account)], [], "failed to fetch info"⟩ : LogEntry)
          ∈ (fetchInfoLoop env v n w errCh received logs).logs := by
  induction n with
  | zero =>
    intro w errCh received logs e _ h
    simp [fetchInfoLoop] at h
  | succ n ih =>
    intro w errCh received logs e hapi h
    cases errCh with
    | nil => simp [fetchInfoLoop] at h
    | cons f rest =>
      simp only [fetchInfoLoop] at h ⊢
      cases hout : (runFetch env w v f).outcome with
      | panic => simp [hout] at h
      | nil =>
        simp only [hout] at h ⊢
        obtain ⟨⟨g, hg, hge⟩, hlog⟩ :=
          ih { w with metrics := (runFetch env w v f).metrics } rest (received + 1)
            (logs ++ (runFetch env w v f).logs) e hapi h
        exact ⟨⟨g, List.mem_cons_of_mem _ hg, hge⟩, hlog⟩
      | err e0 =>
        simp only [hout, InfoOutcome.returned.injEq, Option.some.injEq] at h ⊢
        subst h
        exact ⟨⟨f, List.mem_cons_self _ _, runFetch_err_of_same_api env w w0 hapi v f e0 hout⟩,
          by simp⟩

/-- The receive loop waits for a value that never comes only if fewer goroutines send than it
has iterations left. -/
theorem fetchInfoLoop_blocked {F : Type} (env : Env F) (v : TrackedValidator) (n : Nat) :
    ∀ (w : ValidatorsAPIWatcher F) (errCh : List Fetch) (received : Nat) (logs : List LogEntry),
      (fetchInfoLoop env v n w errCh received logs).outcome = .blocked → errCh.length < n := by
  induction n with
  | zero =>
    intro w errCh received logs h
    simp [fetchInfoLoop] at h
  | succ n ih =>
    intro w errCh received logs h
    cases errCh with
    | nil => simp
    | cons f rest =>
      simp only [fetchInfoLoop] at h
      cases hout : (runFetch env w v f).outcome with
      | panic => simp [hout] at h
      | nil =>
        simp only [hout] at h
        have := ih _ _ _ _ h
        simp only [List.length_cons]
        omega
      | err e0 => simp [hout] at h

/-- On a registry whose gauges take two labels and with the three fixtures answered with status
200, `fetchInfo` returns `nil` after receiving all three outcomes. -/
theorem fetchInfo_on_twoLabelMetrics :
    completionOrders.map (fun o =>
        ((fetchInfo sampleEnv twoLabelWatcher sampleValidator o).outcome,
          (fetchInfo sampleEnv twoLabelWatcher sampleValidator o).received,
          (fetchInfo sampleEnv twoLabelWatcher sampleValidator o).pending))
      = List.replicate 6 (.returned none, 3, []) := by
  decide

/-- C10, as the claim states it, fails: on the registry built by `New "cosmos"`, the three
requests of the validator with account "zzz", operator address "nop", address "X2" and name
"Y2" are answered with 404, and `fetchInfo` returns the error whose text is
"unexpected status code: 404", which contains none of the four identifiers. -/
theorem C10_error_text_without_validator :
    (fetchInfo sampleEnv fixtureWatcher unknownValidator
        [.account, .validator, .delegator]).outcome = .returned (some (.status 404)) ∧
      (FetchErr.status 404).Error = some "unexpected status code: 404" ∧
      containsText unknownValidator.Account.data "unexpected status code: 404".data = false ∧
      containsText unknownValidator.OperatorAddress.data "unexpected status code: 404".data
        = false ∧
      containsText unknownValidator.Address.data "unexpected status code: 404".data = false ∧
      containsText unknownValidator.Name.data "unexpected status code: 404".data = false := by
  decide

/-- C10, amended: the validator is named in the log, not in the error. Whenever `fetchInfo`
returns an error, that error is the error returned by one of the three fetches, unchanged, and
`fetchInfo` has logged the entry "failed to fetch info" that carries this error and the
account of the validator. -/
theorem C10_error_unchanged_log_names_validator {F : Type} (env : Env F)
    (w : ValidatorsAPIWatcher F) (v : TrackedValidator) (order : List Fetch) (e : FetchErr)
    (h : (fetchInfo env w v order).outcome = .returned (some e)) :
    (∃ f ∈ order, (runFetch env w v f).outcome = .err e) ∧
      (⟨some e, [("validator", v.Account)], [], "failed to fetch info"⟩ : LogEntry)
        ∈ (fetchInfo env w v order).logs :=
  fetchInfoLoop_error env v w 3 w order 0 [] e rfl h

/-- Witness of C10, amended: the three requests of `unknownValidator` answered with 404. -/
theorem C10_error_unchanged_log_names_validator_witness :
    (fetchInfo sampleEnv fixtureWatcher unknownValidator
        [.account, .validator, .delegator]).outcome = .returned (some (.status 404)) ∧
      ((∃ f ∈ [Fetch.account, Fetch.validator, Fetch.delegator],
          (runFetch sampleEnv fixtureWatcher unknownValidator f).outcome
            = .err (.status 404)) ∧
        (⟨some (.status 404), [("validator", unknownValidator.Account)], [],
            "failed to fetch info"⟩ : LogEntry)
          ∈ (fetchInfo sampleEnv fixtureWatcher unknownValidator
              [.account, .validator, .delegator]).logs) :=
  ⟨by decide,
    C10_error_unchanged_log_names_validator sampleEnv fixtureWatcher unknownValidator
      [.account, .validator, .delegator] (.status 404) (by decide)⟩

/-! ## Order independence on a registry whose gauges take two labels -/

/-- A fitting write does not change the label names of any collector. -/
theorem put_labelNames {F : Type} (m : Metrics F) (wr : Write F) (f : MetricField) :
    ((m.put wr).vec f).labelNames = (m.vec f).labelNames := by
  simp only [Metrics.put]
  split <;> simp_all [MetricVec.Set]

/-- A fitting write keeps a two-label registry a two-label registry. -/
theorem put_twoLabels {F : Type} (m : Metrics F) (wr : Write F) (h : m.twoLabels) :
    (m.put wr).twoLabels := by
  intro f hf
  rw [put_labelNames]
  exact h f hf

/-- Fitting writes keep a two-label registry a two-label registry. -/
theorem foldl_put_twoLabels {F : Type} (ws : List (Write F)) (m : Metrics F)
    (h : m.twoLabels) : (ws.foldl Metrics.put m).twoLabels := by
  induction ws generalizing m with
  | nil => exact h
  | cons wr rest ih => exact ih _ (put_twoLabels m wr h)

/-- A write whose number of label values is the number of label names of its gauge succeeds. -/
theorem write_eq_put {F : Type} (m : Metrics F) (wr : Write F)
    (h : wr.lvs.length = (m.vec wr.field).labelNames.length) : m.write wr = some (m.put wr) := by
  simp [Metrics.write, MetricVec.WithLabelValues, h, Metrics.put]

/-- A sequence of fitting writes runs to its end. -/
theorem applyWrites_eq_foldl {F : Type} (ws : List (Write F)) (m : Metrics F)
    (h : ∀ wr ∈ ws, wr.lvs.length = (m.vec wr.field).labelNames.length) :
    applyWrites m ws = (.nil, ws.foldl Metrics.put m) := by
  induction ws generalizing m with
  | nil => rfl
  | cons wr rest ih =>
    simp only [applyWrites, write_eq_put m wr (h wr (List.mem_cons_self _ _)), List.foldl_cons]
    apply ih
    intro wr2 h2
    rw [put_labelNames]
    exact h wr2 (List.mem_cons_of_mem _ h2)

/-- Writes to different gauges commute. -/
theorem put_comm {F : Type} (m : Metrics F) (a b : Write F) (h : a.field ≠ b.field) :
    (m.put a).put b = (m.put b).put a := by
  simp only [Metrics.put, Metrics.mk.injEq, true_and]
  funext f
  by_cases ha : f = a.field
  · have hb : f ≠ b.field := fun hb => h (ha.symm.trans hb)
    simp [ha, h]
  · by_cases hb : f = b.field
    · simp [hb, Ne.symm h]
    · simp [ha, hb]

/-- A write commutes with a sequence of writes to other gauges. -/
theorem foldl_put_put {F : Type} (ws : List (Write F)) (m : Metrics F) (a : Write F)
    (h : ∀ b ∈ ws, a.field ≠ b.field) :
    ws.foldl Metrics.put (m.put a) = (ws.foldl Metrics.put m).put a := by
  induction ws generalizing m with
  | nil => rfl
  | cons b rest ih =>
    simp only [List.foldl_cons]
    rw [put_comm m a b (h b (List.mem_cons_self _ _))]
    exact ih _ (fun c hc => h c (List.mem_cons_of_mem _ hc))

/-- Two sequences of writes to disjoint sets of gauges commute. -/
theorem foldl_put_comm {F : Type} (ws1 ws2 : List (Write F)) (m : Metrics F)
    (h : ∀ a ∈ ws1, ∀ b ∈ ws2, a.field ≠ b.field) :
    ws2.foldl Metrics.put (ws1.foldl Metrics.put m)
      = ws1.foldl Metrics.put (ws2.foldl Metrics.put m) := by
  induction ws1 generalizing m with
  | nil => rfl
  | cons a rest ih =>
    simp only [List.foldl_cons]
    rw [ih (m.put a) (fun c hc => h c (List.mem_cons_of_mem _ hc)),
      foldl_put_put ws2 m a (h a (List.mem_cons_self _ _))]

/-- After a sequence of writes to pairwise distinct gauges, each written gauge holds the value
written to it under the label values of the write. -/
theorem foldl_put_value {F : Type} (ws : List (Write F)) (m : Metrics F)
    (hnodup : (ws.map (fun wr => wr.field)).Nodup) (wr : Write F) (hwr : wr ∈ ws) :
    ((ws.foldl Metrics.put m).vec wr.field).values wr.lvs = some wr.value := by
  induction ws generalizing m with
  | nil => simp at hwr
  | cons a rest ih =>
    simp only [List.map_cons, List.nodup_cons, List.mem_map, not_exists, not_and] at hnodup
    simp only [List.foldl_cons]
    rcases List.mem_cons.mp hwr with h | h
    · subst h
      rw [foldl_put_put rest m wr (fun b hb hab => hnodup.1 b hb hab.symm)]
      simp [Metrics.put, MetricVec.Set]
    · exact ih _ hnodup.2 h

/-- The writes of `fetchAccount` go to its own gauges, with the two label values of the
validator. -/
theorem accountWrites_fit {F : Type} (env : Env F) (v : TrackedValidator)
    (account : APIAccountResponse) (wr : Write F) (h : wr ∈ accountWrites env v account) :
    wr.field ∈ writtenFields .account ∧ wr.lvs = [v.Address, v.Name] := by
  simp only [accountWrites, List.mem_cons, List.mem_singleton, List.not_mem_nil, or_false] at h
  rcases h with rfl | rfl | rfl | rfl | rfl <;> exact ⟨by simp [writtenFields], rfl⟩

/-- The writes of `fetchValidator` go to its own gauges, with the two label values of the
validator. -/
theorem validatorWrites_fit {F : Type} (env : Env F) (v : TrackedValidator)
    (apiValidator : APIValidator F) (wr : Write F)
    (h : wr ∈ validatorWrites env v apiValidator) :
    wr.field ∈ writtenFields .validator ∧ wr.lvs = [v.Address, v.Name] := by
  simp only [validatorWrites, List.mem_cons, List.mem_singleton, List.not_mem_nil,
    or_false] at h
  rcases h with rfl | rfl | rfl | rfl | rfl | rfl | rfl | rfl | rfl | rfl | rfl | rfl | rfl |
    rfl | rfl | rfl | rfl | rfl | rfl <;> exact ⟨by simp [writtenFields], rfl⟩

/-- The write of `fetchDelegator` goes to its own gauge, with the two label values of the
validator. -/
theorem delegatorWrites_fit {F : Type} (env : Env F) (v : TrackedValidator)
    (apiResponse : APIDelegatorsResponse) (wr : Write F)
    (h : wr ∈ delegatorWrites env v apiResponse) :
    wr.field ∈ writtenFields .delegator ∧ wr.lvs = [v.Address, v.Name] := by
  simp only [delegatorWrites, List.mem_singleton] at h
  subst h
  exact ⟨by simp [writtenFields], rfl⟩

/-- The writes a fetch reaches go to its own gauges, with the two label values of the
validator. -/
theorem fetchWrites_fit {F : Type} (env : Env F) (w : ValidatorsAPIWatcher F)
    (v : TrackedValidator) (f : Fetch) (wr : Write F) (h : wr ∈ fetchWrites env w v f) :
    wr.field ∈ writtenFields f ∧ wr.lvs = [v.Address, v.Name] := by
  cases f
  · simp only [fetchWrites] at h
    split at h
    · split at h
      · simp at h
      · split at h
        · exact accountWrites_fit env v _ wr h
        · simp at h
    · simp at h
  · simp only [fetchWrites] at h
    split at h
    · split at h
      · simp at h
      · split at h
        · exact validatorWrites_fit env v _ wr h
        · simp at h
    · simp at h
  · simp only [fetchWrites] at h
    split at h
    · split at h
      · simp at h
      · split at h
        · exact delegatorWrites_fit env v _ wr h
        · simp at h
    · simp at h

/-- The gauges written by the fetches belong to the validator API section of `New`. -/
theorem writtenFields_validatorAPI (f : Fetch) (x : MetricField) (h : x ∈ writtenFields f) :
    x ∈ validatorAPIFields := by
  cases f
  · exact (by decide : ∀ y ∈ writtenFields .account, y ∈ validatorAPIFields) x h
  · exact (by decide : ∀ y ∈ writtenFields .validator, y ∈ validatorAPIFields) x h
  · exact (by decide : ∀ y ∈ writtenFields .delegator, y ∈ validatorAPIFields) x h

/-- Two different fetches write disjoint sets of gauges. -/
theorem writtenFields_disjoint (f g : Fetch) (hfg : f ≠ g) (x y : MetricField)
    (hx : x ∈ writtenFields f) (hy : y ∈ writtenFields g) : x ≠ y := by
  cases f <;> cases g <;> first
    | exact absurd rfl hfg
    | exact (by decide : ∀ a ∈ writtenFields .account, ∀ b ∈ writtenFields .validator, a ≠ b)
        x hx y hy
    | exact (by decide : ∀ a ∈ writtenFields .account, ∀ b ∈ writtenFields .delegator, a ≠ b)
        x hx y hy
    | exact (by decide : ∀ a ∈ writtenFields .validator, ∀ b ∈ writtenFields .account, a ≠ b)
        x hx y hy
    | exact (by decide : ∀ a ∈ writtenFields .validator, ∀ b ∈ writtenFields .delegator, a ≠ b)
        x hx y hy
    | exact (by decide : ∀ a ∈ writtenFields .delegator, ∀ b ∈ writtenFields .account, a ≠ b)
        x hx y hy
    | exact (by decide : ∀ a ∈ writtenFields .delegator, ∀ b ∈ writtenFields .validator, a ≠ b)
        x hx y hy

/-- On a two-label registry every write a fetch reaches fits its gauge. -/
theorem fetchWrites_lengths {F : Type} (env : Env F) (w : ValidatorsAPIWatcher F)
    (v : TrackedValidator) (f : Fetch) (m : Metrics F) (hm : m.twoLabels) (wr : Write F)
    (h : wr ∈ fetchWrites env w v f) : wr.lvs.length = (m.vec wr.field).labelNames.length := by
  obtain ⟨hfield, hlvs⟩ := fetchWrites_fit env w v f wr h
  rw [hm wr.field (writtenFields_validatorAPI f _ hfield), hlvs]
  rfl

/-- On a two-label registry a fetch does not panic, and it leaves the registry with the writes
it reaches applied. -/
theorem runFetch_twoLabels {F : Type} (env : Env F) (w : ValidatorsAPIWatcher F)
    (v : TrackedValidator) (f : Fetch) (hm : w.metrics.twoLabels) :
    (runFetch env w v f).outcome ≠ .panic ∧
      (runFetch env w v f).metrics = (fetchWrites env w v f).foldl Metrics.put w.metrics := by
  have hfit := fetchWrites_lengths env w v f w.metrics hm
  cases f
  · simp only [runFetch, fetchAccount, fetchWrites] at hfit ⊢
    generalize w.api (accountURL v) = rt at hfit ⊢
    cases rt with
    | requestError msg => simp
    | transportError msg => simp
    | response code body =>
      by_cases hc : code = 200
      · subst hc
        cases body with
        | readError msg => simp
        | bytes value =>
          cases value with
          | none => simp
          | some j =>
            cases hj : unmarshalAccount j with
            | none => simp [hj]
            | some a =>
              simp only [hj, ne_eq, not_true_eq_false, if_false] at hfit ⊢
              rw [applyWrites_eq_foldl _ _ hfit]
              simp
      · cases body with
        | readError msg => simp [hc]
        | bytes value => cases value <;> simp [hc]
  · simp only [runFetch, fetchValidator, fetchWrites] at hfit ⊢
    generalize w.api (validatorURL v) = rt at hfit ⊢
    cases rt with
    | requestError msg => simp
    | transportError msg => simp
    | response code body =>
      by_cases hc : code = 200
      · subst hc
        cases body with
        | readError msg => simp
        | bytes value =>
          cases value with
          | none => simp
          | some j =>
            cases hj : unmarshalValidator env j with
            | none => simp [hj]
            | some a =>
              simp only [hj, ne_eq, not_true_eq_false, if_false] at hfit ⊢
              rw [applyWrites_eq_foldl _ _ hfit]
              simp
      · cases body with
        | readError msg => simp [hc]
        | bytes value => cases value <;> simp [hc]
  · simp only [runFetch, fetchDelegator, fetchWrites] at hfit ⊢
    generalize w.api (delegatorsURL v) = rt at hfit ⊢
    cases rt with
    | requestError msg => simp
    | transportError msg => simp
    | response code body =>
      by_cases hc : code = 200
      · subst hc
        cases body with
        | readError msg => simp
        | bytes value =>
          cases value with
          | none => simp
          | some j =>
            cases hj : unmarshalDelegators j with
            | none => simp [hj]
            | some a =>
              simp only [hj, ne_eq, not_true_eq_false, if_false] at hfit ⊢
              rw [applyWrites_eq_foldl _ _ hfit]
              simp
      · cases body with
        | readError msg => simp [hc]
        | bytes value => cases value <;> simp [hc]

/-- The writes a fetch reaches depend on the client, not on the registry state. -/
theorem fetchWrites_metrics {F : Type} (env : Env F) (w : ValidatorsAPIWatcher F)
    (m : Metrics F) (v : TrackedValidator) (f : Fetch) :
    fetchWrites env { w with metrics := m } v f = fetchWrites env w v f := by
  cases f <;> rfl

/-- On a two-label registry the three goroutines run without panic, and the registry ends with
the writes of each applied in completion order. -/
theorem runAll_twoLabels {F : Type} (env : Env F) (w : ValidatorsAPIWatcher F)
    (v : TrackedValidator) (order : List Fetch) :
    ∀ m : Metrics F, m.twoLabels →
      runAll env v { w with metrics := m } order
        = (.nil, order.foldl (fun acc f => (fetchWrites env w v f).foldl Metrics.put acc) m) := by
  induction order with
  | nil => intro m _; rfl
  | cons f rest ih =>
    intro m hm
    obtain ⟨hout, hmet⟩ := runFetch_twoLabels env { w with metrics := m } v f hm
    rw [fetchWrites_metrics] at hmet
    cases hcase : (runFetch env { w with metrics := m } v f).outcome with
    | panic => exact absurd hcase hout
    | nil =>
      simp only [runAll, hcase, List.foldl_cons]
      rw [hmet]
      exact ih _ (foldl_put_twoLabels _ _ hm)
    | err e =>
      simp only [runAll, hcase, List.foldl_cons]
      rw [hmet]
      exact ih _ (foldl_put_twoLabels _ _ hm)

/-- The writes reached by two different fetches commute. -/
theorem fetchWrites_comm {F : Type} (env : Env F) (w : ValidatorsAPIWatcher F)
    (v : TrackedValidator) (f g : Fetch) (hfg : f ≠ g) (m : Metrics F) :
    (fetchWrites env w v g).foldl Metrics.put ((fetchWrites env w v f).foldl Metrics.put m)
      = (fetchWrites env w v f).foldl Metrics.put
          ((fetchWrites env w v g).foldl Metrics.put m) :=
  foldl_put_comm _ _ m (fun a ha b hb =>
    writtenFields_disjoint f g hfg _ _ (fetchWrites_fit env w v f a ha).1
      (fetchWrites_fit env w v g b hb).1)

/-- Order independence on a two-label registry: for every validator, every two-label registry
state and every answer of the client, the result of the three goroutines is the same for each
of the six orders in which they can complete. -/
theorem runAll_order_independent {F : Type} (env : Env F) (w : ValidatorsAPIWatcher F)
    (v : TrackedValidator) (hm : w.metrics.twoLabels) (order : List Fetch)
    (horder : order ∈ completionOrders) :
    runAll env v w order = runAll env v w [.account, .validator, .delegator] := by
  have key := fun o => runAll_twoLabels env w v o w.metrics hm
  have hw : ({ w with metrics := w.metrics } : ValidatorsAPIWatcher F) = w := rfl
  rw [hw] at key
  rw [key order, key [.account, .validator, .delegator]]
  simp only [completionOrders, List.mem_cons, List.mem_singleton, List.not_mem_nil,
    or_false] at horder
  have hAV := fetchWrites_comm env w v .account .validator (by decide)
  have hAD := fetchWrites_comm env w v .account .delegator (by decide)
  have hVD := fetchWrites_comm env w v .validator .delegator (by decide)
  rcases horder with h | h | h | h | h | h <;> subst h <;>
    simp only [List.foldl_cons, List.foldl_nil, Prod.mk.injEq, true_and]
  · rw [hVD]
  · rw [hAV]
  · rw [hAV, hAD]
  · rw [← hAD, hVD]
  · rw [← hVD, ← hAD, hAV]

/-- The gauges a fetch reaches are all of its gauges, in order, or none. -/
theorem fetchWrites_fields {F : Type} (env : Env F) (w : ValidatorsAPIWatcher F)
    (v : TrackedValidator) (f : Fetch) :
    (fetchWrites env w v f).map (fun wr => wr.field) = writtenFields f ∨
      (fetchWrites env w v f).map (fun wr => wr.field) = [] := by
  cases f
  · simp only [fetchWrites]
    split
    · split
      · right; rfl
      · split
        · left; rfl
        · right; rfl
    · right; rfl
  · simp only [fetchWrites]
    split
    · split
      · right; rfl
      · split
        · left; rfl
        · right; rfl
    · right; rfl
  · simp only [fetchWrites]
    split
    · split
      · right; rfl
      · split
        · left; rfl
        · right; rfl
    · right; rfl

/-- Publication on a two-label registry: for every validator, every two-label registry state and
each of the six completion orders, the three goroutines end without panic, and every write that
a fetch reaches is in the final state: the written gauge holds the written value under the
label values (validator.Address, validator.Name). -/
theorem runAll_publishes {F : Type} (env : Env F) (w : ValidatorsAPIWatcher F)
    (v : TrackedValidator) (hm : w.metrics.twoLabels) (order : List Fetch)
    (horder : order ∈ completionOrders) (f : Fetch) (wr : Write F)
    (hwr : wr ∈ fetchWrites env w v f) :
    (runAll env v w order).1 = .nil ∧
      ((runAll env v w order).2.vec wr.field).values [v.Address, v.Name] = some wr.value := by
  rw [runAll_order_independent env w v hm order horder]
  have key := runAll_twoLabels env w v [.account, .validator, .delegator] w.metrics hm
  have hw : ({ w with metrics := w.metrics } : ValidatorsAPIWatcher F) = w := rfl
  rw [hw] at key
  rw [key]
  refine ⟨rfl, ?_⟩
  simp only [List.foldl_cons, List.foldl_nil, ← List.foldl_append]
  rw [← (fetchWrites_fit env w v f wr hwr).2]
  apply foldl_put_value
  · simp only [List.map_append]
    rcases fetchWrites_fields env w v .account with ha | ha <;>
      rcases fetchWrites_fields env w v .validator with hv | hv <;>
        rcases fetchWrites_fields env w v .delegator with hd | hd <;>
          rw [ha, hv, hd] <;> decide
  · simp only [List.mem_append]
    cases f
    · exact Or.inl (Or.inl hwr)
    · exact Or.inl (Or.inr hwr)
    · exact Or.inr hwr

/-- The registry `twoLabelMetrics` is a two-label registry, so the two theorems above apply to
it. -/
theorem twoLabelMetrics_twoLabels {F : Type} (ns : String) :
    (twoLabelMetrics ns : Metrics F).twoLabels := by
  intro f _
  rfl

/-- The registry built by `New` is not a two-label registry. -/
theorem New_not_twoLabels {F : Type} (ns : String) : ¬ (New ns : Metrics F).twoLabels := by
  intro h
  have h1 : (1 : Nat) = 2 := h .ValidatorBalanceAvailable (by decide)
  exact absurd h1 (by decide)

/-! ## The value `fetchInfo` returns -/

/-- The error returned is that of the first failure in completion order: when the account and
delegators requests are both answered with an error status and the delegators fetch completes
first, `fetchInfo` returns the error of the delegators fetch. -/
theorem fetchInfo_returns_first_failure :
    (fetchInfo sampleEnv
        { fixtureWatcher with api := fun url =>
            if url = "https://api.testnet.storyscan.app/accounts/abc" then
              RoundTrip.response 500 (Body.bytes none)
            else RoundTrip.response 404 (Body.bytes none) }
        sampleValidator [.delegator, .account, .validator]).outcome
      = .returned (some (.status 404)) := by
  decide

/-! ## Request targets -/

/-- The three request URLs are the constant base followed by the path of the endpoint. -/
theorem requestURL_eq (v : TrackedValidator) :
    requestURL v .account = baseAuthority ++ "/accounts/" ++ v.Account ∧
      requestURL v .validator = baseAuthority ++ "/validators/" ++ v.OperatorAddress ∧
      requestURL v .delegator
        = baseAuthority ++ "/validators/" ++ v.OperatorAddress ++ "/delegators" :=
  ⟨rfl, rfl, rfl⟩

/-- C13, as the claim states it, fails: the base authority is not a configuration value. For
the validator with account "abc" and operator address "op", every watcher, whatever its
registry, validator list and client, requests the three targets under
`https://api.testnet.storyscan.app`, and none requests the account from another authority
such as `http://localhost:1317`. -/
theorem C13_base_authority_is_constant :
    (∀ w : ValidatorsAPIWatcher Int, requestedTarget sampleEnv w sampleValidator .account
        = some "https://api.testnet.storyscan.app/accounts/abc") ∧
      (∀ w : ValidatorsAPIWatcher Int, requestedTarget sampleEnv w sampleValidator .validator
        = some "https://api.testnet.storyscan.app/validators/op") ∧
      (∀ w : ValidatorsAPIWatcher Int, requestedTarget sampleEnv w sampleValidator .delegator
        = some "https://api.testnet.storyscan.app/validators/op/delegators") ∧
      ¬ ∃ w : ValidatorsAPIWatcher Int, requestedTarget sampleEnv w sampleValidator .account
        = some "http://localhost:1317/accounts/abc" := by
  refine ⟨fun w => rfl, fun w => rfl, fun w => rfl, ?_⟩
  rintro ⟨w, hw⟩
  have h : requestedTarget sampleEnv w sampleValidator .account
      = some "https://api.testnet.storyscan.app/accounts/abc" := rfl
  rw [h] at hw
  exact absurd hw (by decide)

/-- C13, amended: the request targets are built on a constant base. For every tracked validator
and every watcher, the three request targets are the constant
`https://api.testnet.storyscan.app` followed by "/accounts/" + Account,
"/validators/" + OperatorAddress and "/validators/" + OperatorAddress + "/delegators". -/
theorem C13_targets_on_constant_base {F : Type} (env : Env F) (w : ValidatorsAPIWatcher F)
    (v : TrackedValidator) :
    requestedTarget env w v .account
        = some ("https://api.testnet.storyscan.app" ++ "/accounts/" ++ v.Account) ∧
      requestedTarget env w v .validator
        = some ("https://api.testnet.storyscan.app" ++ "/validators/" ++ v.OperatorAddress) ∧
      requestedTarget env w v .delegator
        = some ("https://api.testnet.storyscan.app" ++ "/validators/" ++ v.OperatorAddress
            ++ "/delegators") :=
  ⟨rfl, rfl, rfl⟩

/-! ## Registration -/

/-- The name that `New` gives the collector of a field, without the namespace. -/
theorem New_opts {F : Type} (ns : String) (f : MetricField) :
    ((New ns : Metrics F).vec f).opts.Namespace = ns ∧
      ((New ns : Metrics F).vec f).opts.Name = ((New "" : Metrics Unit).vec f).opts.Name := by
  cases f <;> exact ⟨rfl, rfl⟩

/-- The names that `New` gives the collectors are pairwise distinct, and none is empty. -/
theorem New_names_nodup :
    (registerOrder.map (fun f => ((New "" : Metrics Unit).vec f).opts.Name)).Nodup ∧
      ∀ n ∈ registerOrder.map (fun f => ((New "" : Metrics Unit).vec f).opts.Name), n ≠ "" := by
  constructor
  · decide
  · decide

/-- For one namespace and no subsystem, `BuildFQName` maps different non-empty names to
different fully-qualified names. -/
theorem BuildFQName_inj (ns a b : String) (ha : a ≠ "") (hb : b ≠ "")
    (h : BuildFQName ns "" a = BuildFQName ns "" b) : a = b := by
  by_cases hns : ns = ""
  · simpa [BuildFQName, ha, hb, hns] using h
  · simp only [BuildFQName, ha, hb, hns, ne_eq, not_true_eq_false, and_false, if_false,
      not_false_eq_true, if_true] at h
    have hd := congrArg String.data h
    simp only [String.data_append, List.append_cancel_left_eq] at hd
    exact String.ext hd

/-- A collector none of whose descriptor names is registered gets registered. -/
theorem MustRegister_new (registry descs : List String) (h : ∀ d ∈ descs, d ∉ registry) :
    MustRegister registry descs = some (registry ++ descs) := by
  have hany : descs.any (fun d => registry.contains d) = false := by
    rw [List.any_eq_false]
    intro d hd
    simpa using h d hd
  rw [MustRegister, hany]
  rfl

/-- A collector one of whose descriptor names is registered already makes `MustRegister`
panic. -/
theorem MustRegister_duplicate (registry descs : List String) (d : String) (hd : d ∈ descs)
    (hreg : d ∈ registry) : MustRegister registry descs = none := by
  have hany : descs.any (fun d => registry.contains d) = true := by
    rw [List.any_eq_true]
    exact ⟨d, hd, by simpa using hreg⟩
  rw [MustRegister, hany]
  rfl

/-- Collectors with pairwise distinct names, none of them registered, get registered one after
the other. -/
theorem foldlM_MustRegister_new (g : MetricField → String) (l : List MetricField) :
    ∀ registry : List String, (l.map g).Nodup → (∀ f ∈ l, g f ∉ registry) →
      l.foldlM (fun r f => MustRegister r [g f]) registry = some (registry ++ l.map g) := by
  induction l with
  | nil => intro registry _ _; simp
  | cons f rest ih =>
    intro registry hnodup hnew
    simp only [List.map_cons, List.nodup_cons] at hnodup
    rw [List.foldlM_cons, MustRegister_new registry [g f]
      (by simpa using hnew f (List.mem_cons_self _ _))]
    simp only [Option.bind_eq_bind, Option.some_bind]
    rw [ih (registry ++ [g f]) hnodup.2]
    · simp
    · intro f2 hf2 hmem
      rcases List.mem_append.mp hmem with h | h
      · exact hnew f2 (List.mem_cons_of_mem _ hf2) h
      · simp only [List.mem_singleton] at h
        exact hnodup.1 (h ▸ List.mem_map_of_mem g hf2)

/-- The fully-qualified name of the collector that `New ns` builds for a field. -/
theorem fqName_New {F : Type} (ns : String) (f : MetricField) :
    ((New ns : Metrics F).vec f).fqName
      = BuildFQName ns "" ((New "" : Metrics Unit).vec f).opts.Name := by
  simp only [MetricVec.fqName, (New_opts ns f).1, (New_opts ns f).2]

/-- For every namespace, the collectors that `Register` takes from a `Metrics` built by `New`
have pairwise distinct fully-qualified names. -/
theorem fqNames_nodup {F : Type} (ns : String) :
    (registerOrder.map (fun f => ((New ns : Metrics F).vec f).fqName)).Nodup := by
  have h : registerOrder.map (fun f => ((New ns : Metrics F).vec f).fqName)
      = (registerOrder.map (fun f => ((New "" : Metrics Unit).vec f).opts.Name)).map
          (BuildFQName ns "") := by
    rw [List.map_map]
    exact List.map_congr_left (fun f _ => fqName_New ns f)
  rw [h]
  refine List.Nodup.map_on ?_ New_names_nodup.1
  intro a ha b hb hab
  exact BuildFQName_inj ns a b (New_names_nodup.2 a ha) (New_names_nodup.2 b hb) hab

/-- C15: `Register` registers every collector of `New` once, under pairwise distinct names. For
every namespace, and for library collectors whose descriptor names do not coincide with each
other or with a name of that namespace: the collectors of a `Metrics` built by `New` have
pairwise distinct metric names; `Register` lists every field once; `Register` on the freshly
built `Metrics` runs without a duplicate registration and leaves a registry that holds the
names of the two library collectors followed by the names of the forty-nine collectors in
source order, so that the name of every gauge and counter that `New` constructs, and of every
gauge that the validator API watcher writes, is in the registry exactly once, the collectors
themselves being unchanged; and a second `Register` on the result panics on a duplicate. -/
theorem C15_register_once_distinct_names {F : Type} (ns : String) (lib : Collectors)
    (hlib : lib.compatible ns = true) :
    (∀ f g : MetricField, f ≠ g →
        ((New ns : Metrics F).vec f).fqName ≠ ((New ns : Metrics F).vec g).fqName) ∧
      (registerOrder.map (fun f => ((New ns : Metrics F).vec f).fqName)).Nodup ∧
      (∀ f : MetricField, registerOrder.count f = 1) ∧
      (∀ k, ∀ f ∈ writtenFields k, f ∈ registerOrder) ∧
      ∃ m1 : Metrics F, Register lib (New ns) = some m1 ∧
        m1.Registry = lib.process ++ lib.go
          ++ registerOrder.map (fun f => ((New ns : Metrics F).vec f).fqName) ∧
        m1.vec = (New ns : Metrics F).vec ∧
        (∀ f : MetricField, m1.Registry.count ((New ns : Metrics F).vec f).fqName = 1) ∧
        (∀ k, ∀ f ∈ writtenFields k,
          m1.Registry.count ((New ns : Metrics F).vec f).fqName = 1) ∧
        Register lib m1 = none := by
  have hcount : ∀ f : MetricField, registerOrder.count f = 1 := by
    intro f
    cases f <;> rfl
  have hmem : ∀ f : MetricField, f ∈ registerOrder := by
    intro f
    have := hcount f
    exact List.count_pos_iff.mp (by omega)
  have hinj : ∀ f g : MetricField, f ≠ g →
      ((New ns : Metrics F).vec f).fqName ≠ ((New ns : Metrics F).vec g).fqName := by
    intro f g hfg heq
    exact hfg (List.inj_on_of_nodup_map (fqNames_nodup ns) (hmem f) (hmem g) heq)
  refine ⟨hinj, fqNames_nodup ns, hcount, fun k f _ => hmem f, ?_⟩
  -- what the hypothesis on the library collectors says
  simp [Collectors.compatible] at hlib
  obtain ⟨hgo, hown⟩ := hlib
  have hown2 : ∀ f ∈ registerOrder,
      ((New ns : Metrics F).vec f).fqName ∉ ([] ++ lib.process) ++ lib.go := by
    intro f hf
    have := hown f hf
    rw [fqName_New] at this ⊢
    simpa using this
  -- the first call
  have h1 : MustRegister (New ns : Metrics F).Registry lib.process = some ([] ++ lib.process) :=
    MustRegister_new [] lib.process (by simp)
  have h2 : MustRegister ([] ++ lib.process) lib.go = some (([] ++ lib.process) ++ lib.go) :=
    MustRegister_new _ lib.go (by simpa using hgo)
  have h3 := foldlM_MustRegister_new (fun f => ((New ns : Metrics F).vec f).fqName)
    registerOrder (([] ++ lib.process) ++ lib.go) (fqNames_nodup ns) hown2
  -- every name is in the resulting registry once
  have hone : ∀ f : MetricField,
      ((([] ++ lib.process) ++ lib.go)
        ++ registerOrder.map (fun f => ((New ns : Metrics F).vec f).fqName)).count
          ((New ns : Metrics F).vec f).fqName = 1 := by
    intro f
    have hlibs : ((([] : List String) ++ lib.process) ++ lib.go).count
        ((New ns : Metrics F).vec f).fqName = 0 :=
      List.count_eq_zero_of_not_mem (hown2 f (hmem f))
    have hnames : (registerOrder.map (fun f => ((New ns : Metrics F).vec f).fqName)).count
        ((New ns : Metrics F).vec f).fqName = 1 :=
      List.count_eq_one_of_mem (fqNames_nodup ns)
        (List.mem_map_of_mem (fun f => ((New ns : Metrics F).vec f).fqName) (hmem f))
    rw [List.count_append, hlibs, hnames]
  refine ⟨{ (New ns : Metrics F) with
    Registry := (([] ++ lib.process) ++ lib.go)
      ++ registerOrder.map (fun f => ((New ns : Metrics F).vec f).fqName) }, ?_, ?_, rfl, hone,
    fun k f _ => hone f, ?_⟩
  · simp only [Register, h1, h2, h3]
  · simp
  · -- the second call
    simp only [Register]
    cases hp : lib.process with
    | cons d rest =>
      rw [MustRegister_duplicate _ (d :: rest) d (List.mem_cons_self _ _) (by simp [hp])]
    | nil =>
      rw [MustRegister_new _ [] (by simp)]
      simp only []
      cases hg : lib.go with
      | cons d rest =>
        rw [MustRegister_duplicate _ (d :: rest) d (List.mem_cons_self _ _) (by simp [hg])]
      | nil =>
        rw [MustRegister_new _ [] (by simp)]
        simp only []
        have hfirst : registerOrder = MetricField.BlockHeight :: registerOrder.tail := rfl
        rw [hfirst, List.foldlM_cons, MustRegister_duplicate _ _ _ (List.mem_singleton_self _)
          (by
            rw [← hfirst]
            simp only [List.append_nil, List.nil_append, List.mem_map]
            exact ⟨.BlockHeight, hmem _, rfl⟩)]
        rfl

/-- Witness of C15: the namespace "cosmos" and `sampleCollectors`. -/
theorem C15_register_once_distinct_names_witness :
    sampleCollectors.compatible "cosmos" = true ∧
      ((∀ f g : MetricField, f ≠ g →
          ((New "cosmos" : Metrics Int).vec f).fqName
            ≠ ((New "cosmos" : Metrics Int).vec g).fqName) ∧
        (registerOrder.map (fun f => ((New "cosmos" : Metrics Int).vec f).fqName)).Nodup ∧
        (∀ f : MetricField, registerOrder.count f = 1) ∧
        (∀ k, ∀ f ∈ writtenFields k, f ∈ registerOrder) ∧
        ∃ m1 : Metrics Int, Register sampleCollectors (New "cosmos") = some m1 ∧
          m1.Registry = sampleCollectors.process ++ sampleCollectors.go
            ++ registerOrder.map (fun f => ((New "cosmos" : Metrics Int).vec f).fqName) ∧
          m1.vec = (New "cosmos" : Metrics Int).vec ∧
          (∀ f : MetricField,
            m1.Registry.count ((New "cosmos" : Metrics Int).vec f).fqName = 1) ∧
          (∀ k, ∀ f ∈ writtenFields k,
            m1.Registry.count ((New "cosmos" : Metrics Int).vec f).fqName = 1) ∧
          Register sampleCollectors m1 = none) :=
  ⟨by decide, C15_register_once_distinct_names "cosmos" sampleCollectors (by decide)⟩

/-- The registry that `Register` leaves for the namespace "cosmos" and `sampleCollectors`: the
seven names of the library collectors, then the forty-nine names of the collectors of `New`,
beginning with `cosmos_block_height` and ending with `cosmos_validator_uptime_window_end`. -/
theorem Register_cosmos_registry :
    (Register sampleCollectors (New "cosmos" : Metrics Int)).map (fun m => m.Registry.length)
        = some 56 ∧
      (Register sampleCollectors (New "cosmos" : Metrics Int)).map (fun m => m.Registry.take 9)
        = some ["process_cpu_seconds_total", "process_open_fds", "process_start_time_seconds",
            "go_goroutines", "go_threads", "go_info", "go_gc_duration_seconds",
            "cosmos_block_height", "cosmos_active_set"] ∧
      (Register sampleCollectors (New "cosmos" : Metrics Int)).map
          (fun m => m.Registry.getLast?)
        = some (some "cosmos_validator_uptime_window_end") := by
  decide

/-! ## Poll rounds -/

/-- Under a cancelled context every fetch returns the transport error of the cancellation. -/
theorem runFetch_cancelled {F : Type} (env : Env F) (m : Metrics F)
    (vs : List TrackedValidator) (api : String → RoundTrip) (v : TrackedValidator) (f : Fetch) :
    (runFetch env ⟨m, vs, withContext true api⟩ v f).outcome
      = .err (.transport "context canceled") := by
  cases f <;> rfl

/-- A call of `fetchInfo` under a cancelled context that returns, returns the transport error of
the cancellation. -/
theorem fetchInfo_cancelled {F : Type} (env : Env F) (m : Metrics F)
    (vs : List TrackedValidator) (api : String → RoundTrip) (v : TrackedValidator)
    (order : List Fetch) (err : Option FetchErr)
    (h : (fetchInfo env ⟨m, vs, withContext true api⟩ v order).outcome = .returned err) :
    err = some (.transport "context canceled") := by
  cases order with
  | nil => simp [fetchInfo, fetchInfoLoop] at h
  | cons f rest =>
    simp only [fetchInfo, fetchInfoLoop, runFetch_cancelled] at h
    simp only [InfoOutcome.returned.injEq] at h
    exact h.symm

/-- A poll round that reaches the tick-wait has called `fetchInfo` once for each validator, in
order, at the positions that follow one another; every call has returned, and for every call
that returned an error `Start` has logged that error with the account of the validator. -/
theorem pollRound_completed {F : Type} (env : Env F) (w : ValidatorsAPIWatcher F) (s : Script)
    (round : Nat) :
    ∀ (vs : List TrackedValidator) (pos : Nat) (st : RunState F),
      (pollRound env w s round pos vs st).1 = .completed →
      ∃ (calls : List Call) (logs : List LogEntry),
        (pollRound env w s round pos vs st).2.calls = st.calls ++ calls ∧
        (pollRound env w s round pos vs st).2.logs = st.logs ++ logs ∧
        calls.map (fun c => c.validator) = vs ∧
        calls.map (fun c => c.pos) = List.range' pos vs.length ∧
        (∀ c ∈ calls, c.round = round ∧ c.cancelled = s.cancelled round c.pos ∧
          (∃ err, c.outcome = .returned err) ∧
          (c.cancelled = true → c.outcome = .returned (some (.transport "context canceled")))) ∧
        (∀ c ∈ calls, ∀ e, c.outcome = .returned (some e) →
          (⟨some e, [("validator", c.validator.Account)], [], "failed to fetch info"⟩ : LogEntry)
            ∈ logs) := by
  intro vs
  induction vs with
  | nil =>
    intro pos st _
    exact ⟨[], [], by simp [pollRound]⟩
  | cons v rest ih =>
    intro pos st h
    rw [pollRound] at h ⊢
    simp only at h ⊢
    have hcan : s.cancelled round pos = true → ∀ err0,
        (fetchInfo env
          { metrics := st.metrics, validators := w.validators,
            api := withContext (s.cancelled round pos) w.api } v (s.sched round pos)).outcome
          = .returned err0 → err0 = some (.transport "context canceled") := by
      intro hc err0 h0
      rw [hc] at h0
      exact fetchInfo_cancelled env _ _ _ v _ err0 h0
    generalize fetchInfo env
        { metrics := st.metrics, validators := w.validators,
          api := withContext (s.cancelled round pos) w.api } v (s.sched round pos) = r
      at h hcan ⊢
    cases hout : r.outcome with
    | panic => simp [hout] at h
    | blocked => simp [hout] at h
    | returned err =>
      simp only [hout] at h hcan ⊢
      generalize finishGoroutines env v
        { metrics := r.metrics, validators := w.validators,
          api := withContext (s.cancelled round pos) w.api } r.pending = left at h ⊢
      have step : ∀ (st1 : RunState F) (c0 : Call) (logs0 : List LogEntry),
          st1.calls = st.calls ++ [c0] → st1.logs = st.logs ++ logs0 →
          c0.validator = v → c0.pos = pos → c0.round = round →
          c0.cancelled = s.cancelled round pos →
          (∃ err0, c0.outcome = .returned err0) →
          (c0.cancelled = true →
            c0.outcome = .returned (some (.transport "context canceled"))) →
          (∀ e, c0.outcome = .returned (some e) →
            (⟨some e, [("validator", v.Account)], [], "failed to fetch info"⟩ : LogEntry)
              ∈ logs0) →
          (pollRound env w s round (pos + 1) rest st1).1 = .completed →
          ∃ (calls : List Call) (logs : List LogEntry),
            (pollRound env w s round (pos + 1) rest st1).2.calls = st.calls ++ calls ∧
            (pollRound env w s round (pos + 1) rest st1).2.logs = st.logs ++ logs ∧
            calls.map (fun c => c.validator) = v :: rest ∧
            calls.map (fun c => c.pos) = List.range' pos (v :: rest).length ∧
            (∀ c ∈ calls, c.round = round ∧ c.cancelled = s.cancelled round c.pos ∧
              (∃ err, c.outcome = .returned err) ∧
              (c.cancelled = true →
                c.outcome = .returned (some (.transport "context canceled")))) ∧
            (∀ c ∈ calls, ∀ e, c.outcome = .returned (some e) →
              (⟨some e, [("validator", c.validator.Account)], [], "failed to fetch info"⟩ :
                LogEntry) ∈ logs) := by
        intro st1 c0 logs0 hc0 hl0 hv0 hp0 hr0 hcan0 hret0 hctx0 he0 hdone
        obtain ⟨calls, logs, hc, hl, hv, hp, hr, he⟩ := ih (pos + 1) st1 hdone
        refine ⟨c0 :: calls, logs0 ++ logs, ?_, ?_, ?_, ?_, ?_, ?_⟩
        · rw [hc, hc0]
          simp
        · rw [hl, hl0]
          simp
        · simp [hv, hv0]
        · simp [hp, hp0, List.range'_succ]
        · intro c hcmem
          rcases List.mem_cons.mp hcmem with h1 | h1
          · subst h1
            exact ⟨hr0, by rw [hcan0, hp0], hret0, hctx0⟩
          · exact hr c h1
        · intro c hcmem e hce
          rcases List.mem_cons.mp hcmem with h1 | h1
          · subst h1
            rw [hv0]
            exact List.mem_append_left _ (he0 e hce)
          · exact List.mem_append_right _ (he c h1 e hce)
      cases hleft : left.outcome with
      | panic => simp [hleft] at h
      | nil =>
        simp only [hleft] at h ⊢
        refine step _ _ _ rfl (by simp only [List.append_assoc]; rfl) rfl rfl rfl rfl
          ⟨err, rfl⟩ (fun hc => by rw [hcan hc err rfl]) ?_ h
        intro e he
        simp only [InfoOutcome.returned.injEq] at he
        subst he
        simp
      | err e1 =>
        simp only [hleft] at h ⊢
        refine step _ _ _ rfl (by simp only [List.append_assoc]; rfl) rfl rfl rfl rfl
          ⟨err, rfl⟩ (fun hc => by rw [hcan hc err rfl]) ?_ h
        intro e he
        simp only [InfoOutcome.returned.injEq] at he
        subst he
        simp

/-- On a two-label registry the receive loop does not end in a panic, and it leaves a two-label
registry. -/
theorem fetchInfoLoop_twoLabels {F : Type} (env : Env F) (v : TrackedValidator) (n : Nat) :
    ∀ (w : ValidatorsAPIWatcher F) (errCh : List Fetch) (received : Nat) (logs : List LogEntry),
      w.metrics.twoLabels →
      (fetchInfoLoop env v n w errCh received logs).outcome ≠ .panic ∧
        (fetchInfoLoop env v n w errCh received logs).metrics.twoLabels := by
  induction n with
  | zero =>
    intro w errCh received logs hm
    simp only [fetchInfoLoop]
    exact ⟨by simp, hm⟩
  | succ n ih =>
    intro w errCh received logs hm
    cases errCh with
    | nil =>
      simp only [fetchInfoLoop]
      exact ⟨by simp, hm⟩
    | cons f rest =>
      obtain ⟨hnp, hmet⟩ := runFetch_twoLabels env w v f hm
      have hm2 : (runFetch env w v f).metrics.twoLabels := by
        rw [hmet]
        exact foldl_put_twoLabels _ _ hm
      simp only [fetchInfoLoop]
      cases hout : (runFetch env w v f).outcome with
      | panic => exact absurd hout hnp
      | nil =>
        simp only []
        exact ih { w with metrics := (runFetch env w v f).metrics } rest (received + 1)
          (logs ++ (runFetch env w v f).logs) hm2
      | err e =>
        simp only []
        exact ⟨by simp, hm2⟩

/-- On a two-label registry the goroutines left behind end without panic, and they leave a
two-label registry. -/
theorem finishGoroutines_twoLabels {F : Type} (env : Env F) (v : TrackedValidator)
    (l : List Fetch) :
    ∀ w : ValidatorsAPIWatcher F, w.metrics.twoLabels →
      (finishGoroutines env v w l).outcome ≠ .panic ∧
        (finishGoroutines env v w l).metrics.twoLabels := by
  induction l with
  | nil =>
    intro w hm
    simp only [finishGoroutines]
    exact ⟨by simp, hm⟩
  | cons f rest ih =>
    intro w hm
    obtain ⟨hnp, hmet⟩ := runFetch_twoLabels env w v f hm
    have hm2 : (runFetch env w v f).metrics.twoLabels := by
      rw [hmet]
      exact foldl_put_twoLabels _ _ hm
    cases hout : (runFetch env w v f).outcome with
    | panic => exact absurd hout hnp
    | nil =>
      simp only [finishGoroutines, hout]
      exact ih { w with metrics := (runFetch env w v f).metrics } hm2
    | err e =>
      simp only [finishGoroutines, hout]
      exact ih { w with metrics := (runFetch env w v f).metrics } hm2

/-- On a two-label registry, with the goroutines of every call completing in one of the six
orders, a poll round reaches the tick-wait, whatever the client answers, and it leaves a
two-label registry. -/
theorem pollRound_twoLabels {F : Type} (env : Env F) (w : ValidatorsAPIWatcher F) (s : Script)
    (round : Nat) (hs : ∀ pos, s.sched round pos ∈ completionOrders) :
    ∀ (vs : List TrackedValidator) (pos : Nat) (st : RunState F), st.metrics.twoLabels →
      (pollRound env w s round pos vs st).1 = .completed ∧
        (pollRound env w s round pos vs st).2.metrics.twoLabels := by
  intro vs
  induction vs with
  | nil =>
    intro pos st hm
    exact ⟨rfl, hm⟩
  | cons v rest ih =>
    intro pos st hm
    have hlen : (s.sched round pos).length = 3 := by
      have h := hs pos
      simp only [completionOrders, List.mem_cons, List.mem_singleton, List.not_mem_nil,
        or_false] at h
      rcases h with h | h | h | h | h | h <;> rw [h] <;> rfl
    have hfi : (fetchInfo env
          { metrics := st.metrics, validators := w.validators,
            api := withContext (s.cancelled round pos) w.api } v (s.sched round pos)).outcome
          ≠ .panic ∧
        (fetchInfo env
          { metrics := st.metrics, validators := w.validators,
            api := withContext (s.cancelled round pos) w.api } v
          (s.sched round pos)).metrics.twoLabels :=
      fetchInfoLoop_twoLabels env v 3
        { metrics := st.metrics, validators := w.validators,
          api := withContext (s.cancelled round pos) w.api } (s.sched round pos) 0 [] hm
    have hnb : (fetchInfo env
        { metrics := st.metrics, validators := w.validators,
          api := withContext (s.cancelled round pos) w.api } v (s.sched round pos)).outcome
        ≠ .blocked := by
      intro hb
      have := fetchInfoLoop_blocked env v 3 _ _ 0 [] hb
      omega
    rw [pollRound]
    simp only
    generalize fetchInfo env
        { metrics := st.metrics, validators := w.validators,
          api := withContext (s.cancelled round pos) w.api } v (s.sched round pos) = r
      at hfi hnb ⊢
    cases hout : r.outcome with
    | panic => exact absurd hout hfi.1
    | blocked => exact absurd hout hnb
    | returned err =>
      simp only []
      have hleft := finishGoroutines_twoLabels env v r.pending
        { metrics := r.metrics, validators := w.validators,
          api := withContext (s.cancelled round pos) w.api } hfi.2
      generalize finishGoroutines env v
        { metrics := r.metrics, validators := w.validators,
          api := withContext (s.cancelled round pos) w.api } r.pending = left at hleft ⊢
      cases hlo : left.outcome with
      | panic => exact absurd hlo hleft.1
      | nil =>
        simp only []
        exact ih (pos + 1) _ hleft.2
      | err e =>
        simp only []
        exact ih (pos + 1) _ hleft.2

/-- With the goroutines of every call completing in one of the six orders, no call of
`fetchInfo` in a poll round waits for a value that never comes. -/
theorem pollRound_not_blocked {F : Type} (env : Env F) (w : ValidatorsAPIWatcher F)
    (s : Script) (round : Nat) (hs : ∀ pos, s.sched round pos ∈ completionOrders) :
    ∀ (vs : List TrackedValidator) (pos : Nat) (st : RunState F),
      (pollRound env w s round pos vs st).1 ≠ .blocked := by
  intro vs
  induction vs with
  | nil =>
    intro pos st
    simp [pollRound]
  | cons v rest ih =>
    intro pos st
    have hlen : (s.sched round pos).length = 3 := by
      have h := hs pos
      simp only [completionOrders, List.mem_cons, List.mem_singleton, List.not_mem_nil,
        or_false] at h
      rcases h with h | h | h | h | h | h <;> rw [h] <;> rfl
    have hnb : (fetchInfo env
        { metrics := st.metrics, validators := w.validators,
          api := withContext (s.cancelled round pos) w.api } v (s.sched round pos)).outcome
        ≠ .blocked := by
      intro hb
      have := fetchInfoLoop_blocked env v 3 _ _ 0 [] hb
      omega
    rw [pollRound]
    simp only
    generalize fetchInfo env
        { metrics := st.metrics, validators := w.validators,
          api := withContext (s.cancelled round pos) w.api } v (s.sched round pos) = r
      at hnb ⊢
    cases hout : r.outcome with
    | panic => simp
    | blocked => exact absurd hout hnb
    | returned err =>
      simp only []
      generalize finishGoroutines env v
        { metrics := r.metrics, validators := w.validators,
          api := withContext (s.cancelled round pos) w.api } r.pending = left
      cases hlo : left.outcome with
      | panic => simp
      | nil =>
        simp only []
        exact ih (pos + 1) _
      | err e =>
        simp only []
        exact ih (pos + 1) _

/-! ## Runs of `Start` -/

/-- A poll round over a list of validators followed by further ones is the round over the first
list and then, from the position reached, over the others. -/
theorem pollRound_append {F : Type} (env : Env F) (w : ValidatorsAPIWatcher F) (s : Script)
    (round : Nat) (vs2 : List TrackedValidator) :
    ∀ (vs1 : List TrackedValidator) (pos : Nat) (st st1 : RunState F),
      pollRound env w s round pos vs1 st = (.completed, st1) →
      pollRound env w s round pos (vs1 ++ vs2) st
        = pollRound env w s round (pos + vs1.length) vs2 st1 := by
  intro vs1
  induction vs1 with
  | nil =>
    intro pos st st1 h
    simp only [pollRound, Prod.mk.injEq, true_and] at h
    subst h
    rfl
  | cons v rest ih =>
    intro pos st st1 h
    rw [List.cons_append, pollRound]
    rw [pollRound] at h
    simp only at h ⊢
    generalize fetchInfo env
        { metrics := st.metrics, validators := w.validators,
          api := withContext (s.cancelled round pos) w.api } v (s.sched round pos) = r
      at h ⊢
    cases hout : r.outcome with
    | panic => simp [hout] at h
    | blocked => simp [hout] at h
    | returned err =>
      simp only [hout] at h ⊢
      generalize finishGoroutines env v
        { metrics := r.metrics, validators := w.validators,
          api := withContext (s.cancelled round pos) w.api } r.pending = left at h ⊢
      have hpos : pos + (v :: rest).length = pos + 1 + rest.length := by
        simp only [List.length_cons]
        omega
      cases hlo : left.outcome with
      | panic => simp [hlo] at h
      | nil =>
        simp only [hlo] at h ⊢
        rw [hpos]
        exact ih (pos + 1) _ st1 h
      | err e =>
        simp only [hlo] at h ⊢
        rw [hpos]
        exact ih (pos + 1) _ st1 h

/-- The loop of `Start` taken up at a validator boundary inside a round is the loop from the
position reached: when the fetches of the validators `vs1` have reached the boundary in the
state `st1`, the run goes on from there. -/
theorem StartLoop_resume {F : Type} (env : Env F) (w : ValidatorsAPIWatcher F) (s : Script)
    (fuel round pos : Nat) (vs1 vs2 : List TrackedValidator) (st st1 : RunState F)
    (h : pollRound env w s round pos vs1 st = (.completed, st1)) :
    StartLoop env w s (fuel + 1) round pos (vs1 ++ vs2) st
      = StartLoop env w s (fuel + 1) round (pos + vs1.length) vs2 st1 := by
  rw [StartLoop, StartLoop, pollRound_append env w s round vs2 vs1 pos st st1 h]

/-- A poll round during which no goroutine panics calls `fetchInfo` once for each validator, in
configuration order: the round reaches the tick-wait, every call returns, and for every call
that returns an error `Start` has logged that error with the account of the validator before
going on. -/
theorem pollRound_calls_each_validator_once {F : Type} (env : Env F)
    (w : ValidatorsAPIWatcher F) (s : Script) (round : Nat) (st : RunState F)
    (hs : ∀ pos, s.sched round pos ∈ completionOrders)
    (hnp : (pollRound env w s round 0 w.validators st).1 ≠ .aborted) :
    (pollRound env w s round 0 w.validators st).1 = .completed ∧
      (∃ calls : List Call,
        (pollRound env w s round 0 w.validators st).2.calls = st.calls ++ calls ∧
        calls.map (fun c => c.validator) = w.validators ∧
        calls.map (fun c => c.pos) = List.range w.validators.length ∧
        (∀ c ∈ calls, ∃ err, c.outcome = .returned err) ∧
        (∀ c ∈ calls, ∀ e, c.outcome = .returned (some e) →
          (⟨some e, [("validator", c.validator.Account)], [], "failed to fetch info"⟩ : LogEntry)
            ∈ (pollRound env w s round 0 w.validators st).2.logs)) := by
  have hdone : (pollRound env w s round 0 w.validators st).1 = .completed := by
    have hnb := pollRound_not_blocked env w s round hs w.validators 0 st
    cases hend : (pollRound env w s round 0 w.validators st).1 with
    | completed => rfl
    | aborted => exact absurd hend hnp
    | blocked => exact absurd hend hnb
  obtain ⟨calls, logs, hc, hl, hv, hp, hr, he⟩ :=
    pollRound_completed env w s round w.validators 0 st hdone
  refine ⟨hdone, ⟨calls, hc, hv, ?_, fun c hcm => (hr c hcm).2.2.1, ?_⟩⟩
  · rw [hp, List.range_eq_range']
  · intro c hcm e hce
    rw [hl]
    exact List.mem_append_right _ (he c hcm e hce)

/-- C11: the code does not proceed past a failed call when another fetch of that validator
decodes its response. On the registry built by `New "cosmos"`, with the validators
`sampleValidator` and `unknownValidator`, the account request of the first answered with status
500 and its two other requests with status 200 and the fixtures, the account fetch completing
first: `fetchInfo` returns the error of the account fetch for the first validator, a goroutine
left behind by that call panics at its first write, which ends the process, and `fetchInfo` is
never called for the second validator. On a registry whose gauges take two labels the same
round calls `fetchInfo` for both validators, in configuration order, and `Start` goes on
running after the two failed calls, as the claim says. -/
theorem C11_round_ends_at_leftover_panic :
    (Start sampleEnv accountDownWatcher neverCancelled 1).ending = .aborted ∧
      (Start sampleEnv accountDownWatcher neverCancelled 1).state.calls
        = [ ⟨0, 0, sampleValidator, false, .returned (some (.status 500))⟩ ] ∧
      (Start sampleEnv { accountDownWatcher with metrics := twoLabelMetrics "cosmos" }
        neverCancelled 1).ending = .running ∧
      (Start sampleEnv { accountDownWatcher with metrics := twoLabelMetrics "cosmos" }
        neverCancelled 1).state.calls
        = [ ⟨0, 0, sampleValidator, false, .returned (some (.status 500))⟩,
            ⟨0, 1, unknownValidator, false, .returned (some (.status 404))⟩ ] := by
  decide

/-- When every request fails, a poll round on the registry built by `New "cosmos"` goes through
both validators: both calls of `fetchInfo` return an error. -/
theorem pollRound_all_requests_fail :
    (pollRound sampleEnv twoValidatorsWatcher neverCancelled 0 0
        twoValidatorsWatcher.validators ⟨New "cosmos", [], []⟩).1 = .completed ∧
      (pollRound sampleEnv twoValidatorsWatcher neverCancelled 0 0
        twoValidatorsWatcher.validators ⟨New "cosmos", [], []⟩).2.calls
        = [ ⟨0, 0, sampleValidator, false, .returned (some (.status 500))⟩,
            ⟨0, 1, unknownValidator, false, .returned (some (.status 500))⟩ ] := by
  decide

/-- A run over two poll rounds: on a two-label registry, with the requests of the first
validator answered with the fixtures and those of the second with 404, `Start` calls
`fetchInfo` for both validators in each round, the failure of the second does not end the run,
and `Start` returns at the tick-wait during which cancellation is signalled. -/
theorem Start_two_rounds :
    (Start sampleEnv twoLabelTwoValidators tickThenCancel 5).ending = .returned ∧
      (Start sampleEnv twoLabelTwoValidators tickThenCancel 5).state.calls
        = [ ⟨0, 0, sampleValidator, false, .returned none⟩,
            ⟨0, 1, unknownValidator, false, .returned (some (.status 404))⟩,
            ⟨1, 0, sampleValidator, false, .returned none⟩,
            ⟨1, 1, unknownValidator, false, .returned (some (.status 404))⟩ ] := by
  decide

/-- While cancellation is not signalled `Start` does not return: it is still running after as
many rounds as are looked at. -/
theorem Start_running_without_cancellation :
    (Start sampleEnv twoValidatorsWatcher neverCancelled 3).ending = .running ∧
      (Start sampleEnv twoValidatorsWatcher neverCancelled 3).state.calls.map
          (fun c => (c.round, c.pos))
        = [(0, 0), (0, 1), (1, 0), (1, 1), (2, 0), (2, 1)] := by
  decide

/-- With cancellation signalled before the first poll round and a tick ready at the first
tick-wait, which is taken first, `Start` makes two whole poll rounds under the cancelled context
before it returns. -/
theorem Start_round_after_cancellation :
    (Start sampleEnv twoValidatorsWatcher cancelledFromStart 5).ending = .returned ∧
      (Start sampleEnv twoValidatorsWatcher cancelledFromStart 5).state.calls.map
          (fun c => (c.round, c.pos, c.cancelled))
        = [(0, 0, true), (0, 1, true), (1, 0, true), (1, 1, true)] := by
  decide

/-- The run of `Start` on `twoValidatorsWatcher` under `cancelAtBoundary` is the run taken up
at the boundary between the two validators in the state that the call for the first validator
has left. -/
theorem Start_resumed_at_boundary (rounds : Nat) :
    Start sampleEnv twoValidatorsWatcher cancelAtBoundary (rounds + 1)
      = StartLoop sampleEnv twoValidatorsWatcher cancelAtBoundary (rounds + 1) 0 1
          (twoValidatorsWatcher.validators.drop 1)
          (pollRound sampleEnv twoValidatorsWatcher cancelAtBoundary 0 0 [sampleValidator]
            ⟨New "cosmos", [], []⟩).2 := by
  have h : pollRound sampleEnv twoValidatorsWatcher cancelAtBoundary 0 0 [sampleValidator]
      ⟨New "cosmos", [], []⟩
      = (.completed, (pollRound sampleEnv twoValidatorsWatcher cancelAtBoundary 0 0
          [sampleValidator] ⟨New "cosmos", [], []⟩).2) := by
    have h1 : (pollRound sampleEnv twoValidatorsWatcher cancelAtBoundary 0 0 [sampleValidator]
        ⟨New "cosmos", [], []⟩).1 = .completed := by decide
    exact Prod.ext h1 rfl
  exact StartLoop_resume sampleEnv twoValidatorsWatcher cancelAtBoundary rounds 0 0
    [sampleValidator] [unknownValidator] _ _ h

end ValidatorWatcher
